import Mathlib

/-! HID device-handle layer: shallow embedding

A model of the two backends of the HID access library:

* `src/linux/hid.c`   (namespace `HidApi.Linux`)
* `src/hidapi/hid.cpp` (namespace `HidApi.Win`)

The process-wide `static Device devices[MAX_DEVICES]` array together with the
`devices_initialized` flag is an explicit `Table` value that is threaded
through every operation.  Calls into the operating system are not executed:
what the OS answers is an argument of the operation, and the calls the
operation issues are collected, in program order, in the `calls` field of its
`Outcome`.
-/

namespace HidApi

/-- The table size, `#define MAX_DEVICES 64` in both backends. -/
abbrev MAX_DEVICES : Nat := 64

/-- Conversion of an integer value to a C `int` (32 bit, two's complement). -/
def to_int (x : Int) : Int :=
  let r := x % 4294967296
  if r < 2147483648 then r else r - 4294967296

/-- Conversion of an integer value to a C `unsigned short` (16 bit). -/
def to_ushort (x : Int) : Nat := (x % 65536).toNat

/-- The scan `for (i = 0; i < MAX_DEVICES; i++) if (!devices[i].valid) ... break;`
with which `hid_open_path` looks for "an available handle to use" (the same
text in both backends), started at index `i` with `n` iterations left; `valid`
reads the `valid` field of a slot.  The result is the index at which the loop
breaks, `none` when it runs to the end. -/
def find_available (valid : Fin MAX_DEVICES → Bool) : Nat → Nat → Option (Fin MAX_DEVICES)
  | 0, _ => none
  | n + 1, i =>
    if h : i < MAX_DEVICES then
      if valid ⟨i, h⟩ then find_available valid n (i + 1) else some ⟨i, h⟩
    else none

/-- One record of an enumeration result, `struct hid_device` (declared in
`hidapi.h`, filled in by `hid_enumerate`).  An absent (`NULL`) string is
`none`; the `next` link is the order of the list the records are kept in. -/
structure hid_device where
  path : Option String
  vendor_id : Nat
  product_id : Nat
  serial_number : Option (List Nat)
  manufacturer_string : Option (List Nat)
  product_string : Option (List Nat)
deriving DecidableEq

/-- The ways in which a call of the library leaves defined behaviour. -/
inductive Fault where
  /-- In `copy_udev_string`, `mbstowcs(NULL, str, 0)` returned `(size_t)-1`:
  `calloc(wlen+1, ..)` allocates nothing and `ret[wlen] = 0x0000` writes outside
  the allocation. -/
  | copy_out_of_bounds
  /-- In `hid_open`, `wcscmp(serial_number, cur_dev->serial_number)` was called
  with a `NULL` second argument. -/
  | wcscmp_null
  /-- In `hid_free_enumeration`, `free` was called on a member that was never
  assigned and does not hold `NULL`. -/
  | free_unassigned
deriving DecidableEq

/-- The result of a call that may leave defined behaviour. -/
inductive Result (α : Type) where
  | ok (val : α)
  | fault (f : Fault)
deriving DecidableEq

/-- The value of a completed call mapped through `g`; a fault stays. -/
def Result.map {α β : Type} (g : α → β) : Result α → Result β
  | Result.ok val => Result.ok (g val)
  | Result.fault f => Result.fault f

/-- How the `while (cur_dev)` loop of `hid_open` ends. -/
inductive open_scan where
  /-- Left by `break` after `path_to_open = cur_dev->path` (which may be `NULL`). -/
  | path_to_open (path : Option String)
  /-- The list ran out (`cur_dev` is `NULL`), `path_to_open` is still `NULL`. -/
  | exhausted
  /-- The loop called `wcscmp(serial_number, cur_dev->serial_number)` with a
  `NULL` second argument: the behaviour of the call is undefined. -/
  | wcscmp_null
deriving DecidableEq

/-- The `while (cur_dev)` loop of `hid_open` (the same text in both backends)
over the records `hid_enumerate` returned.  `serial_number` is `none` for a
`NULL` argument; `wcscmp(a, b) == 0` holds exactly for equal strings. -/
def hid_open_scan (vendor_id product_id : Nat) (serial_number : Option (List Nat)) :
    List hid_device → open_scan
  | [] => open_scan.exhausted
  | cur_dev :: next =>
    if cur_dev.vendor_id = vendor_id ∧ cur_dev.product_id = product_id then
      match serial_number with
      | some sn =>
        match cur_dev.serial_number with
        | none => open_scan.wcscmp_null
        | some ds =>
          if sn = ds then open_scan.path_to_open cur_dev.path
          else hid_open_scan vendor_id product_id serial_number next
      | none => open_scan.path_to_open cur_dev.path
    else hid_open_scan vendor_id product_id serial_number next

/-! ## Linux backend (`src/linux/hid.c`) -/

namespace Linux

/-- One slot, `struct Device` of `src/linux/hid.c`. -/
structure Device where
  valid : Bool
  device_handle : Int
  blocking : Bool
deriving DecidableEq

/-- The static storage of the backend: the slot array and the flag that
records whether the lazy initialisation has run. -/
structure Table where
  devices : Fin MAX_DEVICES → Device
  devices_initialized : Bool

/-- The system calls the backend issues on an open device. -/
inductive NativeCall where
  | sys_open (path : String)
  | sys_write (fd : Int) (data : List Nat)
  | sys_read (fd : Int) (length : Nat)
  | fcntl_getfl (fd : Int)
  | fcntl_setfl (fd : Int) (flags : Int)
  | sys_close (fd : Int)
deriving DecidableEq

/-- What an operation leaves behind: the table, the value it returns and the
system calls it made, in order. -/
structure Outcome (α : Type) where
  table : Table
  ret : α
  calls : List NativeCall

/-- Static storage of a C program starts zeroed: every field of every slot is
zero and `devices_initialized` is 0. -/
def Table.initial : Table :=
  { devices := fun _ => { valid := false, device_handle := 0, blocking := false }
    devices_initialized := false }

/-- The states the static storage can be in: as long as the flag is clear
nothing has been written to the slot array. -/
def Table.wf (s : Table) : Prop :=
  s.devices_initialized = false →
    ∀ i, s.devices i = { valid := false, device_handle := 0, blocking := false }

/-- The value of the descriptor flag `O_NONBLOCK` (`<fcntl.h>`, 04000). -/
def O_NONBLOCK : Int := 2048

/-- The first block of `hid_open_path`: "Initialize the Device array if it
hasn't been done." -/
def init_devices (s : Table) : Table :=
  if s.devices_initialized then s
  else
    { devices := fun _ => { valid := false, device_handle := -1, blocking := true }
      devices_initialized := true }

/-- Model of `hid_open_path(path)`; `open_result` is what
`open(path, O_RDWR)` returns. -/
def hid_open_path (s : Table) (path : String) (open_result : Int) : Outcome Int :=
  let s1 := init_devices s
  match find_available (fun i => (s1.devices i).valid) MAX_DEVICES 0 with
  | none => { table := s1, ret := -1, calls := [] }
  | some i =>
    let dev : Device := { s1.devices i with valid := true, device_handle := open_result }
    if dev.device_handle > 0 then
      { table := { s1 with devices := Function.update s1.devices i dev }
        ret := (i.val : Int)
        calls := [NativeCall.sys_open path] }
    else
      { table := { s1 with devices := Function.update s1.devices i { dev with valid := false } }
        ret := -1
        calls := [NativeCall.sys_open path] }

/-- The check every operation starts with ("Get the handle"): the slot index
when `device` is in range and the slot is valid. -/
def get_handle (s : Table) (device : Int) : Option (Fin MAX_DEVICES) :=
  if h : device < 0 ∨ device ≥ (MAX_DEVICES : Int) then none
  else
    let i : Fin MAX_DEVICES := ⟨device.toNat, by omega⟩
    if (s.devices i).valid = false then none else some i

/-- Model of `hid_write`; `write_result` is what `write` returns. -/
def hid_write (s : Table) (device : Int) (data : List Nat) (write_result : Int) : Outcome Int :=
  match get_handle s device with
  | none => { table := s, ret := -1, calls := [] }
  | some i =>
    { table := s
      ret := to_int write_result
      calls := [NativeCall.sys_write (s.devices i).device_handle data] }

/-- Model of `hid_read`; `read_result` is what `read` returns. -/
def hid_read (s : Table) (device : Int) (length : Nat) (read_result : Int) : Outcome Int :=
  match get_handle s device with
  | none => { table := s, ret := -1, calls := [] }
  | some i =>
    { table := s
      ret := to_int read_result
      calls := [NativeCall.sys_read (s.devices i).device_handle length] }

/-- Model of `hid_set_nonblocking`; `getfl_result` is what
`fcntl(fd, F_GETFL, 0)` returns and `setfl_result` what `fcntl(fd, F_SETFL, ..)`
returns. -/
def hid_set_nonblocking (s : Table) (device : Int) (nonblock : Int)
    (getfl_result setfl_result : Int) : Outcome Int :=
  match get_handle s device with
  | none => { table := s, ret := -1, calls := [] }
  | some i =>
    let dev := s.devices i
    let flags := getfl_result
    if flags ≥ 0 then
      let written :=
        if nonblock ≠ 0 then Int.lor flags O_NONBLOCK
        else Int.land flags (Int.lnot O_NONBLOCK)
      let calls :=
        [NativeCall.fcntl_getfl dev.device_handle, NativeCall.fcntl_setfl dev.device_handle written]
      let res := setfl_result
      if res < 0 then { table := s, ret := -1, calls := calls }
      else
        { table :=
            { s with devices := Function.update s.devices i { dev with blocking := (nonblock == 0) } }
          ret := 0
          calls := calls }
    else { table := s, ret := -1, calls := [NativeCall.fcntl_getfl dev.device_handle] }

/-- Model of `hid_close`. -/
def hid_close (s : Table) (device : Int) : Outcome Unit :=
  match get_handle s device with
  | none => { table := s, ret := (), calls := [] }
  | some i =>
    let dev := s.devices i
    { table := { s with devices := Function.update s.devices i { dev with valid := false } }
      ret := ()
      calls := [NativeCall.sys_close dev.device_handle] }

/-- Model of `hid_get_manufacturer_string`: after the handle check the body
is `// TODO:` and `return 0;`.  `string` is the content of the caller's buffer;
the result is the return value together with the buffer after the call. -/
def hid_get_manufacturer_string (s : Table) (device : Int) (string : List Nat) (_maxlen : Nat) :
    Outcome (Int × List Nat) :=
  match get_handle s device with
  | none => { table := s, ret := (-1, string), calls := [] }
  | some _ => { table := s, ret := (0, string), calls := [] }

/-- Model of `hid_get_product_string` (same body as the manufacturer query). -/
def hid_get_product_string (s : Table) (device : Int) (string : List Nat) (_maxlen : Nat) :
    Outcome (Int × List Nat) :=
  match get_handle s device with
  | none => { table := s, ret := (-1, string), calls := [] }
  | some _ => { table := s, ret := (0, string), calls := [] }

/-- Model of `hid_get_serial_number_string` (same body again). -/
def hid_get_serial_number_string (s : Table) (device : Int) (string : List Nat) (_maxlen : Nat) :
    Outcome (Int × List Nat) :=
  match get_handle s device with
  | none => { table := s, ret := (-1, string), calls := [] }
  | some _ => { table := s, ret := (0, string), calls := [] }

/-- Model of `hid_get_indexed_string` (same body again). -/
def hid_get_indexed_string (s : Table) (device : Int) (_string_index : Int) (string : List Nat)
    (_maxlen : Nat) : Outcome (Int × List Nat) :=
  match get_handle s device with
  | none => { table := s, ret := (-1, string), calls := [] }
  | some _ => { table := s, ret := (0, string), calls := [] }

/-- Model of `hid_error`: `NULL` (here `none`) on every path. -/
def hid_error (s : Table) (device : Int) : Outcome (Option String) :=
  match get_handle s device with
  | none => { table := s, ret := none, calls := [] }
  | some _ => { table := s, ret := none, calls := [] }

/-- A run of consecutive `hid_open_path` calls with no other call in between:
each request is the path and what `open` returns for it; the result is the
final table and the values returned, in order. -/
def open_many (s : Table) : List (String × Int) → Table × List Int
  | [] => (s, [])
  | (path, open_result) :: rest =>
    let o := hid_open_path s path open_result
    let r := open_many o.table rest
    (r.1, o.ret :: r.2)

/-- The call sequence open, `hid_set_nonblocking(h, 1)`, `hid_close(h)`, open
from the initial table; every native call succeeds (descriptors 3 and 4,
`F_GETFL` reads `O_RDWR`).  The result is the outcome of the second open. -/
def reopen_after_nonblocking : Outcome Int :=
  let o1 := hid_open_path Table.initial "/dev/hidraw0" 3
  let o2 := hid_set_nonblocking o1.table o1.ret 1 2 0
  let o3 := hid_close o2.table o1.ret
  hid_open_path o3.table "/dev/hidraw1" 4

/-- A udev device object, as far as `hid_enumerate` reads it: its sysfs
attributes by name. -/
structure udev_device where
  sysattr : List (String × String)
deriving DecidableEq

/-- The answer of `udev_device_get_sysattr_value(dev, name)`: the value of the
attribute, `none` for `NULL`. -/
def udev_device_get_sysattr_value (dev : udev_device) (name : String) : Option String :=
  dev.sysattr.lookup name

/-- One entry of the list udev reports for the `hidraw` subsystem: the device
node of the hidraw device (`udev_device_get_devnode`) and its parent with
subsystem/devtype `usb`/`usb_device`, `none` when udev finds none. -/
structure hidraw_entry where
  devnode : Option String
  usb_parent : Option udev_device
deriving DecidableEq

/-- Model of `copy_udev_string`.  `mbstowcs` is the C library's conversion of
a multibyte string to wide characters in the current locale: `none` when
`mbstowcs(NULL, str, 0)` returns `(size_t)-1` (an invalid multibyte sequence),
otherwise the converted characters.  The return value is not tested by the
code: on `(size_t)-1` it allocates `wlen+1 = 0` characters and stores the
terminator at `ret[wlen]`. -/
def copy_udev_string (mbstowcs : String → Option (List Nat)) (dev : udev_device)
    (udev_name : String) : Result (Option (List Nat)) :=
  match udev_device_get_sysattr_value dev udev_name with
  | some str =>
    match mbstowcs str with
    | some w =>
      let wlen := w.length
      Result.ok (some (w.take wlen))
    | none => Result.fault Fault.copy_out_of_bounds
  | none => Result.ok none

/-- The vendor or product id `hid_enumerate` reads from a USB device:
`(str)? strtol(str, NULL, 16): 0x0` stored in an `unsigned short`; `strtol16`
is the C library's `strtol(_, NULL, 16)`. -/
def read_id (strtol16 : String → Int) (dev : udev_device) (name : String) : Nat :=
  match udev_device_get_sysattr_value dev name with
  | some str => to_ushort (strtol16 str)
  | none => to_ushort 0

/-- The body of `udev_list_entry_foreach` in `hid_enumerate`: `root` is the
list built so far, a new record is linked behind its last one. -/
def enumerate_loop (strtol16 : String → Int) (mbstowcs : String → Option (List Nat))
    (vendor_id product_id : Nat) :
    List hidraw_entry → List hid_device → Result (List hid_device)
  | [], root => Result.ok root
  | entry :: rest, root =>
    let dev_path := entry.devnode
    match entry.usb_parent with
    | none => enumerate_loop strtol16 mbstowcs vendor_id product_id rest root
    | some dev =>
      let dev_vid := read_id strtol16 dev "idVendor"
      let dev_pid := read_id strtol16 dev "idProduct"
      if (vendor_id = 0 ∧ product_id = 0) ∨ (vendor_id = dev_vid ∧ product_id = dev_pid) then
        match copy_udev_string mbstowcs dev "serial" with
        | Result.fault f => Result.fault f
        | Result.ok serial_number =>
          match copy_udev_string mbstowcs dev "manufacturer" with
          | Result.fault f => Result.fault f
          | Result.ok manufacturer_string =>
            match copy_udev_string mbstowcs dev "product" with
            | Result.fault f => Result.fault f
            | Result.ok product_string =>
              let tmp : hid_device :=
                { path := dev_path
                  serial_number := serial_number
                  manufacturer_string := manufacturer_string
                  product_string := product_string
                  vendor_id := dev_vid
                  product_id := dev_pid }
              enumerate_loop strtol16 mbstowcs vendor_id product_id rest (root ++ [tmp])
      else enumerate_loop strtol16 mbstowcs vendor_id product_id rest root

/-- Model of `hid_enumerate(vendor_id, product_id)`.  `udev` is `none` when
`udev_new()` fails, otherwise the list of hidraw devices the OS reports, in
the order udev lists them. -/
def hid_enumerate (strtol16 : String → Int) (mbstowcs : String → Option (List Nat))
    (udev : Option (List hidraw_entry)) (vendor_id product_id : Nat) :
    Result (List hid_device) :=
  match udev with
  | none => Result.ok []
  | some devices => enumerate_loop strtol16 mbstowcs vendor_id product_id devices []

/-- Model of `hid_free_enumeration`: every pointer it frees (`path`, the three
strings, the record) is one `calloc`/`malloc` returned in `hid_enumerate`, or
`NULL`. -/
def hid_free_enumeration : List hid_device → Result Unit
  | [] => Result.ok ()
  | _ :: next => hid_free_enumeration next

/-- Model of `hid_open(vendor_id, product_id, serial_number)`: enumerate, scan
for the record to open, `hid_open_path` on its path when one was found, free
the enumeration.  `open_result` is what `open` returns if `hid_open_path` is
reached. -/
def hid_open (strtol16 : String → Int) (mbstowcs : String → Option (List Nat))
    (udev : Option (List hidraw_entry)) (s : Table) (vendor_id product_id : Nat)
    (serial_number : Option (List Nat)) (open_result : Int) : Result (Outcome Int) :=
  match hid_enumerate strtol16 mbstowcs udev vendor_id product_id with
  | Result.fault f => Result.fault f
  | Result.ok devs =>
    match hid_open_scan vendor_id product_id serial_number devs with
    | open_scan.wcscmp_null => Result.fault Fault.wcscmp_null
    | open_scan.path_to_open (some path) =>
      let o := hid_open_path s path open_result
      match hid_free_enumeration devs with
      | Result.fault f => Result.fault f
      | Result.ok _ => Result.ok o
    | open_scan.path_to_open none =>
      match hid_free_enumeration devs with
      | Result.fault f => Result.fault f
      | Result.ok _ => Result.ok { table := s, ret := -1, calls := [] }
    | open_scan.exhausted =>
      match hid_free_enumeration devs with
      | Result.fault f => Result.fault f
      | Result.ok _ => Result.ok { table := s, ret := -1, calls := [] }

/-- The record the enumeration is to hold for one hidraw device, read off the
device: none when no USB parent was found or the ids do not pass the filter,
otherwise the device's path and ids and, for each string, the conversion of
the attribute when the attribute is present and converts. -/
def selected_record (strtol16 : String → Int) (mbstowcs : String → Option (List Nat))
    (vendor_id product_id : Nat) (e : hidraw_entry) : Option hid_device :=
  e.usb_parent.bind (fun dev =>
    if (vendor_id = 0 ∧ product_id = 0) ∨
        (read_id strtol16 dev "idVendor" = vendor_id ∧
          read_id strtol16 dev "idProduct" = product_id) then
      some
        { path := e.devnode
          vendor_id := read_id strtol16 dev "idVendor"
          product_id := read_id strtol16 dev "idProduct"
          serial_number := (udev_device_get_sysattr_value dev "serial").bind mbstowcs
          manufacturer_string :=
            (udev_device_get_sysattr_value dev "manufacturer").bind mbstowcs
          product_string := (udev_device_get_sysattr_value dev "product").bind mbstowcs }
    else none)

/-- The conversion `mbstowcs` performs in a locale with a 7-bit character set
(the traditional "C" locale, which `setlocale(LC_ALL, "")` selects when the
environment names no other): a string of 7-bit characters converts to its
characters, any other string is an invalid multibyte sequence. -/
def mbstowcs_c_locale (str : String) : Option (List Nat) :=
  if str.toList.all (fun c => decide (c.toNat < 128)) then some (str.toList.map Char.toNat)
  else none

end Linux

/-! ## Windows backend (`src/hidapi/hid.cpp`) -/

namespace Win

/-- One slot, `struct Device` of `src/hidapi/hid.cpp`.  A `HANDLE` is an
integer, a `NULL` message pointer is `none`. -/
structure Device where
  valid : Bool
  device_handle : Int
  blocking : Bool
  last_error_str : Option String
  last_error_num : Nat
deriving DecidableEq

/-- The static storage of the backend. -/
structure Table where
  devices : Fin MAX_DEVICES → Device
  devices_initialized : Bool

/-- The Win32 calls the backend issues. -/
inductive NativeCall where
  | CreateFile (path : String)
  | CloseHandle (h : Int)
  | WriteFile (h : Int) (data : List Nat)
  | ReadFile (h : Int) (length : Nat) (ev : Int)
  | GetOverlappedResult (h : Int)
  | CreateEvent
  | WaitForSingleObject (ev : Int)
  | CancelIo (h : Int)
  | GetLastError
  | FormatMessage
  | LocalFree (p : Option String)
  | HidD_GetManufacturerString (h : Int) (len : Nat)
  | HidD_GetProductString (h : Int) (len : Nat)
  | HidD_GetSerialNumberString (h : Int) (len : Nat)
  | HidD_GetIndexedString (h : Int) (string_index : Int) (len : Nat)
  | SetupDiGetClassDevs
  | SetupDiEnumDeviceInterfaces (device_index : Nat)
  | SetupDiGetDeviceInterfaceDetail (device_index : Nat)
  | HidD_GetAttributes (h : Int)
  | SetupDiDestroyDeviceInfoList
deriving DecidableEq

/-- What an operation leaves behind: the table, the value it returns and the
Win32 calls it made, in order. -/
structure Outcome (α : Type) where
  table : Table
  ret : α
  calls : List NativeCall

/-- `INVALID_HANDLE_VALUE`, `(HANDLE)-1`. -/
def INVALID_HANDLE_VALUE : Int := -1

/-- Static storage starts zeroed. -/
def Table.initial : Table :=
  { devices := fun _ =>
      { valid := false, device_handle := 0, blocking := false, last_error_str := none,
        last_error_num := 0 }
    devices_initialized := false }

/-- The states the static storage can be in: as long as the flag is clear
nothing has been written to the slot array. -/
def Table.wf (s : Table) : Prop :=
  s.devices_initialized = false →
    ∀ i, s.devices i =
      { valid := false, device_handle := 0, blocking := false, last_error_str := none,
        last_error_num := 0 }

/-- Model of `register_error(device, op)`; `msg` is the buffer `FormatMessage`
allocates for `GetLastError()` (`none` when it leaves `msg` at `NULL`). -/
def register_error (device : Device) (msg : Option String) : Device × List NativeCall :=
  ({ device with last_error_str := msg },
    [NativeCall.GetLastError, NativeCall.FormatMessage, NativeCall.LocalFree device.last_error_str])

/-- The first block of `hid_open_path`: "Initialize the Device array if it
hasn't been done." -/
def init_devices (s : Table) : Table :=
  if s.devices_initialized then s
  else
    { devices := fun _ =>
        { valid := false, device_handle := INVALID_HANDLE_VALUE, blocking := true,
          last_error_str := none, last_error_num := 0 }
      devices_initialized := true }

/-- Model of `hid_open_path(path)`; `create_result` is the handle `CreateFile`
returns and `msg` the message `register_error` would obtain. -/
def hid_open_path (s : Table) (path : String) (create_result : Int) (msg : Option String) :
    Outcome Int :=
  let s1 := init_devices s
  match find_available (fun i => (s1.devices i).valid) MAX_DEVICES 0 with
  | none => { table := s1, ret := -1, calls := [] }
  | some i =>
    let dev : Device := { s1.devices i with valid := true, device_handle := create_result }
    if dev.device_handle = INVALID_HANDLE_VALUE then
      let r := register_error dev msg
      { table := { s1 with devices := Function.update s1.devices i { r.1 with valid := false } }
        ret := -1
        calls := NativeCall.CreateFile path :: (r.2 ++ [NativeCall.CloseHandle r.1.device_handle]) }
    else
      { table := { s1 with devices := Function.update s1.devices i dev }
        ret := (i.val : Int)
        calls := [NativeCall.CreateFile path] }

/-- The check every operation starts with ("Get the handle"). -/
def get_handle (s : Table) (device : Int) : Option (Fin MAX_DEVICES) :=
  if h : device < 0 ∨ device ≥ (MAX_DEVICES : Int) then none
  else
    let i : Fin MAX_DEVICES := ⟨device.toNat, by omega⟩
    if (s.devices i).valid = false then none else some i

/-- What the OS answers during one `hid_write`. -/
structure WriteEnv where
  /-- The `BOOL` returned by `WriteFile`. -/
  write_res : Bool
  /-- Whether `GetLastError() == ERROR_IO_PENDING` after a `FALSE` `WriteFile`. -/
  io_pending : Bool
  /-- The `BOOL` returned by `GetOverlappedResult`. -/
  overlapped_res : Bool
  /-- The count `GetOverlappedResult` stores in `bytes_written`. -/
  bytes_written : Nat
  /-- The message `register_error` would obtain. -/
  msg : Option String

/-- Model of `hid_write`. -/
def hid_write (s : Table) (device : Int) (data : List Nat) (env : WriteEnv) : Outcome Int :=
  match get_handle s device with
  | none => { table := s, ret := -1, calls := [] }
  | some i =>
    let dev := s.devices i
    let c1 := [NativeCall.WriteFile dev.device_handle data]
    if env.write_res = false ∧ env.io_pending = false then
      let r := register_error dev env.msg
      { table := { s with devices := Function.update s.devices i r.1 }
        ret := -1
        calls := c1 ++ [NativeCall.GetLastError] ++ r.2 }
    else
      let c2 := (if env.write_res = false then c1 ++ [NativeCall.GetLastError] else c1) ++
        [NativeCall.GetOverlappedResult dev.device_handle]
      if env.overlapped_res = false then
        let r := register_error dev env.msg
        { table := { s with devices := Function.update s.devices i r.1 }
          ret := -1
          calls := c2 ++ r.2 }
      else { table := s, ret := to_int env.bytes_written, calls := c2 }

/-- What the OS answers during one `hid_read`. -/
structure ReadEnv where
  /-- The event handle `CreateEvent` returns. -/
  ev : Int
  /-- The `BOOL` returned by `ReadFile`. -/
  read_res : Bool
  /-- Whether `GetLastError() == ERROR_IO_PENDING` after a `FALSE` `ReadFile`. -/
  io_pending : Bool
  /-- Whether `WaitForSingleObject(ev, 0)` returns `WAIT_OBJECT_0`. -/
  signaled : Bool
  /-- The `BOOL` returned by `GetOverlappedResult`. -/
  overlapped_res : Bool
  /-- The count `GetOverlappedResult` stores in `bytes_read`. -/
  bytes_read : Nat
  /-- The message `register_error` would obtain. -/
  msg : Option String

/-- Model of `hid_read`. -/
def hid_read (s : Table) (device : Int) (length : Nat) (env : ReadEnv) : Outcome Int :=
  match get_handle s device with
  | none => { table := s, ret := -1, calls := [] }
  | some i =>
    let dev := s.devices i
    let c1 := [NativeCall.CreateEvent, NativeCall.ReadFile dev.device_handle length env.ev]
    if env.read_res = false ∧ env.io_pending = false then
      -- ReadFile() has failed: close the event, `goto end_of_function` with `res` FALSE
      let r := register_error dev env.msg
      { table := { s with devices := Function.update s.devices i r.1 }
        ret := -1
        calls := c1 ++ [NativeCall.GetLastError, NativeCall.CloseHandle env.ev] ++ r.2 }
    else
      let c2 := if env.read_res = false then c1 ++ [NativeCall.GetLastError] else c1
      let c3 :=
        if dev.blocking = false then
          c2 ++ [NativeCall.WaitForSingleObject env.ev, NativeCall.CloseHandle env.ev]
        else c2
      if dev.blocking = false ∧ env.signaled = false then
        -- "There was no data. Cancel this read and return."
        { table := s, ret := 0, calls := c3 ++ [NativeCall.CancelIo dev.device_handle] }
      else
        let c4 := c3 ++ [NativeCall.GetOverlappedResult dev.device_handle]
        if env.overlapped_res = false then
          let r := register_error dev env.msg
          { table := { s with devices := Function.update s.devices i r.1 }
            ret := -1
            calls := c4 ++ r.2 }
        else { table := s, ret := to_int env.bytes_read, calls := c4 }

/-- Model of `hid_set_nonblocking`. -/
def hid_set_nonblocking (s : Table) (device : Int) (nonblock : Int) : Outcome Int :=
  match get_handle s device with
  | none => { table := s, ret := -1, calls := [] }
  | some i =>
    let dev := s.devices i
    { table :=
        { s with devices := Function.update s.devices i { dev with blocking := (nonblock == 0) } }
      ret := 0
      calls := [] }

/-- Model of `hid_close`. -/
def hid_close (s : Table) (device : Int) : Outcome Unit :=
  match get_handle s device with
  | none => { table := s, ret := (), calls := [] }
  | some i =>
    let dev := s.devices i
    let closed : Device :=
      { dev with device_handle := INVALID_HANDLE_VALUE, last_error_str := none, valid := false }
    { table := { s with devices := Function.update s.devices i closed }
      ret := ()
      calls := [NativeCall.CloseHandle dev.device_handle, NativeCall.LocalFree dev.last_error_str] }

/-- What the OS answers to one `HidD_Get...String` query. -/
structure StringEnv where
  /-- The `BOOLEAN` the query returns. -/
  res : Bool
  /-- The string the query stores in the caller's buffer when it succeeds. -/
  value : List Nat
  /-- The message `register_error` would obtain. -/
  msg : Option String

/-- The common body of the four string queries after the handle check; `call`
is the `HidD_Get...String` call issued, `string` the caller's buffer. -/
def string_query (s : Table) (device : Int) (call : Int → NativeCall) (string : List Nat)
    (env : StringEnv) : Outcome (Int × List Nat) :=
  match get_handle s device with
  | none => { table := s, ret := (-1, string), calls := [] }
  | some i =>
    let dev := s.devices i
    if env.res = false then
      let r := register_error dev env.msg
      { table := { s with devices := Function.update s.devices i r.1 }
        ret := (-1, string)
        calls := call dev.device_handle :: r.2 }
    else { table := s, ret := (0, env.value), calls := [call dev.device_handle] }

/-- Model of `hid_get_manufacturer_string`. -/
def hid_get_manufacturer_string (s : Table) (device : Int) (string : List Nat) (maxlen : Nat)
    (env : StringEnv) : Outcome (Int × List Nat) :=
  string_query s device (fun h => NativeCall.HidD_GetManufacturerString h (2 * maxlen)) string env

/-- Model of `hid_get_product_string`. -/
def hid_get_product_string (s : Table) (device : Int) (string : List Nat) (maxlen : Nat)
    (env : StringEnv) : Outcome (Int × List Nat) :=
  string_query s device (fun h => NativeCall.HidD_GetProductString h (2 * maxlen)) string env

/-- Model of `hid_get_serial_number_string`. -/
def hid_get_serial_number_string (s : Table) (device : Int) (string : List Nat) (maxlen : Nat)
    (env : StringEnv) : Outcome (Int × List Nat) :=
  string_query s device (fun h => NativeCall.HidD_GetSerialNumberString h (2 * maxlen)) string env

/-- Model of `hid_get_indexed_string`. -/
def hid_get_indexed_string (s : Table) (device : Int) (string_index : Int) (string : List Nat)
    (maxlen : Nat) (env : StringEnv) : Outcome (Int × List Nat) :=
  string_query s device (fun h => NativeCall.HidD_GetIndexedString h string_index (2 * maxlen))
    string env

/-- Model of `hid_error`: the slot's `last_error_str`, `none` for `NULL`. -/
def hid_error (s : Table) (device : Int) : Outcome (Option String) :=
  match get_handle s device with
  | none => { table := s, ret := none, calls := [] }
  | some i => { table := s, ret := (s.devices i).last_error_str, calls := [] }

/-- A run of consecutive `hid_open_path` calls with no other call in between:
each request is the path, the handle `CreateFile` returns for it and the
message a failure would register. -/
def open_many (s : Table) : List (String × Int × Option String) → Table × List Int
  | [] => (s, [])
  | (path, create_result, msg) :: rest =>
    let o := hid_open_path s path create_result msg
    let r := open_many o.table rest
    (r.1, o.ret :: r.2)

/-- The call sequence open, `hid_set_nonblocking(h, 1)`, `hid_close(h)`, open
from the initial table; every native call succeeds (handles 3 and 4).  The
result is the outcome of the second open. -/
def reopen_after_nonblocking : Outcome Int :=
  let o1 := hid_open_path Table.initial "hid#0" 3 none
  let o2 := hid_set_nonblocking o1.table o1.ret 1
  let o3 := hid_close o2.table o1.ret
  hid_open_path o3.table "hid#1" 4 none

/-- The call sequence open (fails natively: `CreateFile` returns
`INVALID_HANDLE_VALUE`, the failure message is `msg`), open (obtains handle 3)
from the initial table.  The result is the outcome of the second open. -/
def open_after_failed_open (msg : Option String) : Outcome Int :=
  let o1 := hid_open_path Table.initial "hid#gone" INVALID_HANDLE_VALUE msg
  hid_open_path o1.table "hid#0" 3 none

/-- The call sequence open (handle 3, returns 0), `hid_write` on it that fails
natively (`WriteFile` returns `FALSE`, not pending) with failure message
`msg`.  The result is the outcome of the write. -/
def failed_write (msg : Option String) : Outcome Int :=
  let o1 := hid_open_path Table.initial "hid#0" 3 none
  hid_write o1.table o1.ret [0, 129] ⟨false, false, false, 0, msg⟩

/-- The sequence of `failed_write` followed by a `hid_write` on the same handle
that succeeds (pending, then completed with 2 bytes). -/
def write_after_failed_write (msg : Option String) : Outcome Int :=
  hid_write (failed_write msg).table 0 [0, 129] ⟨false, true, true, 2, none⟩

/-- What the OS answers about one device interface of the HID class during
`hid_enumerate`, in the order `SetupDiEnumDeviceInterfaces` lists them. -/
structure device_interface where
  /-- The `BOOL` of the second `SetupDiGetDeviceInterfaceDetail` call. -/
  detail_res : Bool
  /-- The `DevicePath` member of the detail data. -/
  DevicePath : String
  /-- The handle the transient `CreateFile` returns. -/
  write_handle : Int
  /-- The `VendorID` member of `attrib` after `HidD_GetAttributes`. -/
  VendorID : Nat
  /-- The `ProductID` member of `attrib` after `HidD_GetAttributes`. -/
  ProductID : Nat
  /-- The `BOOLEAN` of `HidD_GetSerialNumberString`. -/
  serial_res : Bool
  /-- The string `HidD_GetSerialNumberString` leaves in `ser`. -/
  ser : List Nat
  /-- What the `manufacturer_string` member of the freshly `malloc`ed record
  holds: `hid_enumerate` never assigns it. -/
  heap_manufacturer_string : Option (List Nat)
  /-- What the `product_string` member of the freshly `malloc`ed record holds:
  `hid_enumerate` never assigns it. -/
  heap_product_string : Option (List Nat)
  /-- What the variable `write_handle` holds at `cont:` when the detail call
  failed and the `goto` skipped its initialisation. -/
  stale_write_handle : Int
deriving DecidableEq

/-- The body of the `for (;;)` loop of `hid_enumerate`: `root` is the list
built so far (a new record is linked behind its last one), `calls` the Win32
calls made so far. -/
def enumerate_loop (vendor_id product_id : Nat) :
    List device_interface → Nat → List hid_device → List NativeCall →
      List hid_device × List NativeCall
  | [], device_index, root, calls =>
    (root, calls ++ [NativeCall.SetupDiEnumDeviceInterfaces device_index])
  | itf :: rest, device_index, root, calls =>
    let c0 := calls ++
      [NativeCall.SetupDiEnumDeviceInterfaces device_index,
        NativeCall.SetupDiGetDeviceInterfaceDetail device_index,
        NativeCall.SetupDiGetDeviceInterfaceDetail device_index]
    if itf.detail_res = false then
      enumerate_loop vendor_id product_id rest (device_index + 1) root
        (c0 ++ [NativeCall.CloseHandle itf.stale_write_handle])
    else
      let c1 := c0 ++ [NativeCall.CreateFile itf.DevicePath]
      if itf.write_handle = INVALID_HANDLE_VALUE then
        enumerate_loop vendor_id product_id rest (device_index + 1) root
          (c1 ++ [NativeCall.CloseHandle itf.write_handle,
            NativeCall.CloseHandle itf.write_handle])
      else
        let c2 := c1 ++ [NativeCall.HidD_GetAttributes itf.write_handle]
        if (vendor_id = 0 ∧ product_id = 0) ∨
            (itf.VendorID = vendor_id ∧ itf.ProductID = product_id) then
          let tmp : hid_device :=
            { path := some itf.DevicePath
              serial_number :=
                if itf.serial_res = false then none
                else if itf.ser.length = 0 then none
                else some itf.ser
              manufacturer_string := itf.heap_manufacturer_string
              product_string := itf.heap_product_string
              vendor_id := itf.VendorID
              product_id := itf.ProductID }
          enumerate_loop vendor_id product_id rest (device_index + 1) (root ++ [tmp])
            (c2 ++ [NativeCall.HidD_GetSerialNumberString itf.write_handle 1024,
              NativeCall.CloseHandle itf.write_handle])
        else
          enumerate_loop vendor_id product_id rest (device_index + 1) root
            (c2 ++ [NativeCall.CloseHandle itf.write_handle])

/-- Model of `hid_enumerate(vendor_id, product_id)`; `interfaces` are the
device interfaces the OS lists before `SetupDiEnumDeviceInterfaces` returns
`FALSE`.  The result is the list of records and the Win32 calls made. -/
def hid_enumerate (interfaces : List device_interface) (vendor_id product_id : Nat) :
    List hid_device × List NativeCall :=
  let r := enumerate_loop vendor_id product_id interfaces 0 [] [NativeCall.SetupDiGetClassDevs]
  (r.1, r.2 ++ [NativeCall.SetupDiDestroyDeviceInfoList])

/-- Model of `hid_free_enumeration`.  `path` and `serial_number` are `NULL` or
what `hid_enumerate` allocated.  The members `manufacturer_string` and
`product_string` are never assigned by the `hid_enumerate` of this backend, so
`free` on them is defined only when the `malloc`ed block happened to hold
`NULL` there. -/
def hid_free_enumeration : List hid_device → Result Unit
  | [] => Result.ok ()
  | d :: next =>
    if d.manufacturer_string = none ∧ d.product_string = none then hid_free_enumeration next
    else Result.fault Fault.free_unassigned

/-- Model of `hid_open(vendor_id, product_id, serial_number)`: enumerate, scan
for the record to open, `hid_open_path` on its path when one was found, free
the enumeration.  `create_result` and `msg` are what the OS answers if
`hid_open_path` is reached; the calls of the enumeration come first in the
log. -/
def hid_open (interfaces : List device_interface) (s : Table) (vendor_id product_id : Nat)
    (serial_number : Option (List Nat)) (create_result : Int) (msg : Option String) :
    Result (Outcome Int) :=
  let e := hid_enumerate interfaces vendor_id product_id
  match hid_open_scan vendor_id product_id serial_number e.1 with
  | open_scan.wcscmp_null => Result.fault Fault.wcscmp_null
  | open_scan.path_to_open (some path) =>
    let o := hid_open_path s path create_result msg
    match hid_free_enumeration e.1 with
    | Result.fault f => Result.fault f
    | Result.ok _ => Result.ok { table := o.table, ret := o.ret, calls := e.2 ++ o.calls }
  | open_scan.path_to_open none =>
    match hid_free_enumeration e.1 with
    | Result.fault f => Result.fault f
    | Result.ok _ => Result.ok { table := s, ret := -1, calls := e.2 }
  | open_scan.exhausted =>
    match hid_free_enumeration e.1 with
    | Result.fault f => Result.fault f
    | Result.ok _ => Result.ok { table := s, ret := -1, calls := e.2 }

/-- The record the enumeration is to hold for one device interface, read off
what the OS answers: none when the detail data or the transient handle could
not be obtained or the ids do not pass the filter, otherwise path, ids and
serial number (absent when the query fails or the string is empty), with the
two members the code leaves unassigned. -/
def selected_record (vendor_id product_id : Nat) (itf : device_interface) : Option hid_device :=
  if itf.detail_res = true ∧ itf.write_handle ≠ INVALID_HANDLE_VALUE ∧
      ((vendor_id = 0 ∧ product_id = 0) ∨
        (itf.VendorID = vendor_id ∧ itf.ProductID = product_id)) then
    some
      { path := some itf.DevicePath
        vendor_id := itf.VendorID
        product_id := itf.ProductID
        serial_number :=
          if itf.serial_res = false then none
          else if itf.ser.length = 0 then none
          else some itf.ser
        manufacturer_string := itf.heap_manufacturer_string
        product_string := itf.heap_product_string }
  else none

end Win

/-! ## Facts about the slot scan and the handle check -/

/-- Where the scan breaks: at a free slot inside the scanned range, with only
valid slots before it. -/
theorem find_available_some (v : Fin MAX_DEVICES → Bool) :
    ∀ (n i : Nat) (k : Fin MAX_DEVICES), find_available v n i = some k →
      i ≤ k.val ∧ k.val < i + n ∧ v k = false ∧
        ∀ j : Fin MAX_DEVICES, i ≤ j.val → j.val < k.val → v j = true := by
  intro n
  induction n with
  | zero => intro i k h; simp [find_available] at h
  | succ n ih =>
    intro i k h
    unfold find_available at h
    split at h
    · rename_i hi
      split at h
      · rename_i hv
        obtain ⟨h1, h2, h3, h4⟩ := ih (i + 1) k h
        refine ⟨by omega, by omega, h3, ?_⟩
        intro j hj1 hj2
        by_cases hji : j.val = i
        · have hj : j = ⟨i, hi⟩ := Fin.ext hji
          rw [hj]; exact hv
        · exact h4 j (by omega) hj2
      · rename_i hv
        injection h with h
        subst h
        refine ⟨le_refl _, by simp, by simpa using hv, ?_⟩
        intro j hj1 hj2
        simp at hj2
        omega
    · simp at h

/-- When the scan runs to the end, every slot of the scanned range is valid. -/
theorem find_available_none (v : Fin MAX_DEVICES → Bool) :
    ∀ (n i : Nat), find_available v n i = none →
      ∀ j : Fin MAX_DEVICES, i ≤ j.val → j.val < i + n → v j = true := by
  intro n
  induction n with
  | zero => intro i _ j h1 h2; omega
  | succ n ih =>
    intro i h j hj1 hj2
    unfold find_available at h
    split at h
    · rename_i hi
      split at h
      · rename_i hv
        by_cases hji : j.val = i
        · have hj : j = ⟨i, hi⟩ := Fin.ext hji
          rw [hj]; exact hv
        · exact ih (i + 1) h j (by omega) (by omega)
      · simp at h
    · have := j.isLt
      omega

/-- The full scan of `hid_open_path` finds nothing exactly when every slot is
valid. -/
theorem find_available_full_none (v : Fin MAX_DEVICES → Bool) :
    find_available v MAX_DEVICES 0 = none ↔ ∀ j, v j = true := by
  constructor
  · intro h j
    exact find_available_none v MAX_DEVICES 0 h j (Nat.zero_le _) (by have := j.isLt; omega)
  · intro h
    cases hf : find_available v MAX_DEVICES 0 with
    | none => rfl
    | some k =>
      have := (find_available_some v MAX_DEVICES 0 k hf).2.2.1
      rw [h k] at this
      cases this

/-- The full scan of `hid_open_path` returns the least free slot. -/
theorem find_available_full_some (v : Fin MAX_DEVICES → Bool) (k : Fin MAX_DEVICES) :
    find_available v MAX_DEVICES 0 = some k ↔
      v k = false ∧ ∀ j : Fin MAX_DEVICES, j.val < k.val → v j = true := by
  constructor
  · intro h
    obtain ⟨_, _, h3, h4⟩ := find_available_some v MAX_DEVICES 0 k h
    exact ⟨h3, fun j hj => h4 j (Nat.zero_le _) hj⟩
  · rintro ⟨h1, h2⟩
    cases hf : find_available v MAX_DEVICES 0 with
    | none =>
      have := (find_available_full_none v).1 hf k
      rw [h1] at this
      cases this
    | some k2 =>
      obtain ⟨_, _, h3, h4⟩ := find_available_some v MAX_DEVICES 0 k2 hf
      have hk : k2 = k := by
        apply Fin.ext
        rcases Nat.lt_trichotomy k2.val k.val with hlt | heq | hgt
        · have := h2 k2 hlt
          rw [h3] at this
          cases this
        · exact heq
        · have := h4 k (Nat.zero_le _) hgt
          rw [h1] at this
          cases this
      rw [hk]

namespace Linux

/-- The handle check fails for a handle that is out of range or names a slot
whose `valid` field is clear. -/
theorem linux_get_handle_none (s : Table) (device : Int)
    (h : device < 0 ∨ 64 ≤ device ∨
      ∃ i : Fin MAX_DEVICES, (i.val : Int) = device ∧ (s.devices i).valid = false) :
    get_handle s device = none := by
  unfold get_handle
  split
  · rfl
  · rename_i hr
    have h64 : ((MAX_DEVICES : Nat) : Int) = 64 := rfl
    rcases h with h | h | ⟨i, hi, hv⟩
    · omega
    · omega
    · have he : (⟨device.toNat, by omega⟩ : Fin MAX_DEVICES) = i := by
        apply Fin.ext
        simp only
        omega
      simp [he, hv]

/-- The handle check yields slot `i` for the handle `i` of a valid slot. -/
theorem linux_get_handle_some (s : Table) (i : Fin MAX_DEVICES) (h : (s.devices i).valid = true) :
    get_handle s (i.val : Int) = some i := by
  unfold get_handle
  have hi := i.isLt
  split
  · omega
  · simp [h]

/-- When the handle check fails `hid_close` does nothing. -/
theorem linux_hid_close_of_none (s : Table) (device : Int) (h : get_handle s device = none) :
    hid_close s device = { table := s, ret := (), calls := [] } := by
  simp only [hid_close, h]

/-- When the handle check fails `hid_error` returns `NULL`. -/
theorem linux_hid_error_of_none (s : Table) (device : Int) (h : get_handle s device = none) :
    hid_error s device = { table := s, ret := none, calls := [] } := by
  simp only [hid_error, h]

end Linux

namespace Win

/-- The handle check fails for a handle that is out of range or names a slot
whose `valid` field is clear. -/
theorem win_get_handle_none (s : Table) (device : Int)
    (h : device < 0 ∨ 64 ≤ device ∨
      ∃ i : Fin MAX_DEVICES, (i.val : Int) = device ∧ (s.devices i).valid = false) :
    get_handle s device = none := by
  unfold get_handle
  split
  · rfl
  · rename_i hr
    have h64 : ((MAX_DEVICES : Nat) : Int) = 64 := rfl
    rcases h with h | h | ⟨i, hi, hv⟩
    · omega
    · omega
    · have he : (⟨device.toNat, by omega⟩ : Fin MAX_DEVICES) = i := by
        apply Fin.ext
        simp only
        omega
      simp [he, hv]

/-- The handle check yields slot `i` for the handle `i` of a valid slot. -/
theorem win_get_handle_some (s : Table) (i : Fin MAX_DEVICES) (h : (s.devices i).valid = true) :
    get_handle s (i.val : Int) = some i := by
  unfold get_handle
  have hi := i.isLt
  split
  · omega
  · simp [h]

/-- When the handle check fails `hid_close` does nothing. -/
theorem win_hid_close_of_none (s : Table) (device : Int) (h : get_handle s device = none) :
    hid_close s device = { table := s, ret := (), calls := [] } := by
  simp only [hid_close, h]

/-- When the handle check fails `hid_error` returns `NULL`. -/
theorem win_hid_error_of_none (s : Table) (device : Int) (h : get_handle s device = none) :
    hid_error s device = { table := s, ret := none, calls := [] } := by
  simp only [hid_error, h]

end Win

/-! ## The three ways `hid_open_path` can go -/

namespace Linux

/-- No free slot: `hid_open_path` returns `-1` before any native call. -/
theorem linux_open_path_full (s : Table) (path : String) (fd : Int)
    (hf : find_available (fun k => ((init_devices s).devices k).valid) MAX_DEVICES 0 = none) :
    hid_open_path s path fd = { table := init_devices s, ret := -1, calls := [] } := by
  unfold hid_open_path
  simp only [hf]

/-- A free slot `i` and a positive descriptor: the slot is taken. -/
theorem linux_open_path_ok (s : Table) (path : String) (fd : Int) (i : Fin MAX_DEVICES)
    (hf : find_available (fun k => ((init_devices s).devices k).valid) MAX_DEVICES 0 = some i)
    (hfd : 0 < fd) :
    hid_open_path s path fd =
      { table :=
          { init_devices s with
            devices := Function.update (init_devices s).devices i
              { valid := true, device_handle := fd,
                blocking := ((init_devices s).devices i).blocking } }
        ret := (i.val : Int)
        calls := [NativeCall.sys_open path] } := by
  unfold hid_open_path
  simp only [hf]
  rw [if_pos (by simpa using hfd)]

/-- A free slot `i` and a descriptor that is not positive: the slot is given
back. -/
theorem linux_open_path_rejected (s : Table) (path : String) (fd : Int) (i : Fin MAX_DEVICES)
    (hf : find_available (fun k => ((init_devices s).devices k).valid) MAX_DEVICES 0 = some i)
    (hfd : fd ≤ 0) :
    hid_open_path s path fd =
      { table :=
          { init_devices s with
            devices := Function.update (init_devices s).devices i
              { valid := false, device_handle := fd,
                blocking := ((init_devices s).devices i).blocking } }
        ret := -1
        calls := [NativeCall.sys_open path] } := by
  unfold hid_open_path
  simp only [hf]
  rw [if_neg (by simpa using hfd)]

/-- On a well-formed table the lazy initialisation keeps every validity flag. -/
theorem linux_init_devices_valid (s : Table) (hwf : s.wf) (j : Fin MAX_DEVICES) :
    ((init_devices s).devices j).valid = (s.devices j).valid := by
  unfold init_devices
  cases hi : s.devices_initialized with
  | true => simp
  | false => simp [hwf hi j]

end Linux

namespace Win

/-- No free slot: `hid_open_path` returns `-1` before any native call. -/
theorem win_open_path_full (s : Table) (path : String) (h : Int) (msg : Option String)
    (hf : find_available (fun k => ((init_devices s).devices k).valid) MAX_DEVICES 0 = none) :
    hid_open_path s path h msg = { table := init_devices s, ret := -1, calls := [] } := by
  unfold hid_open_path
  simp only [hf]

/-- A free slot `i` and a handle other than `INVALID_HANDLE_VALUE`: the slot
is taken. -/
theorem win_open_path_ok (s : Table) (path : String) (h : Int) (msg : Option String)
    (i : Fin MAX_DEVICES)
    (hf : find_available (fun k => ((init_devices s).devices k).valid) MAX_DEVICES 0 = some i)
    (hh : h ≠ INVALID_HANDLE_VALUE) :
    hid_open_path s path h msg =
      { table :=
          { init_devices s with
            devices := Function.update (init_devices s).devices i
              { (init_devices s).devices i with valid := true, device_handle := h } }
        ret := (i.val : Int)
        calls := [NativeCall.CreateFile path] } := by
  unfold hid_open_path
  simp only [hf]
  rw [if_neg (by simpa using hh)]

/-- A free slot `i` and `INVALID_HANDLE_VALUE`: the failure is registered and
the slot is given back. -/
theorem win_open_path_failed (s : Table) (path : String) (msg : Option String)
    (i : Fin MAX_DEVICES)
    (hf : find_available (fun k => ((init_devices s).devices k).valid) MAX_DEVICES 0 = some i) :
    hid_open_path s path INVALID_HANDLE_VALUE msg =
      { table :=
          { init_devices s with
            devices := Function.update (init_devices s).devices i
              { (init_devices s).devices i with
                valid := false, device_handle := INVALID_HANDLE_VALUE, last_error_str := msg } }
        ret := -1
        calls :=
          [NativeCall.CreateFile path, NativeCall.GetLastError, NativeCall.FormatMessage,
            NativeCall.LocalFree ((init_devices s).devices i).last_error_str,
            NativeCall.CloseHandle INVALID_HANDLE_VALUE] } := by
  unfold hid_open_path
  simp only [hf]
  simp [register_error]

/-- On a well-formed table the lazy initialisation keeps every validity flag. -/
theorem win_init_devices_valid (s : Table) (hwf : s.wf) (j : Fin MAX_DEVICES) :
    ((init_devices s).devices j).valid = (s.devices j).valid := by
  unfold init_devices
  cases hi : s.devices_initialized with
  | true => simp
  | false => simp [hwf hi j]

end Win

/-! ## C1: operations on an invalid handle -/

/-- C1: in both backends, for every table and every handle that is out of
range (`< 0` or `≥ 64`) or whose slot has its validity flag clear, `hid_write`,
`hid_read`, `hid_set_nonblocking` and the four string queries return `-1`,
`hid_error` returns no diagnostic and `hid_close` returns; none of them makes
a native call (`calls = []`) and the table after the call is the table before
it.  (The string queries also leave the caller's buffer as it was.) -/
theorem C1_invalid_handle_no_effect
    (sl : Linux.Table) (dl : Int)
    (hl : dl < 0 ∨ 64 ≤ dl ∨
      ∃ i : Fin MAX_DEVICES, (i.val : Int) = dl ∧ (sl.devices i).valid = false)
    (sw : Win.Table) (dw : Int)
    (hw : dw < 0 ∨ 64 ≤ dw ∨
      ∃ i : Fin MAX_DEVICES, (i.val : Int) = dw ∧ (sw.devices i).valid = false)
    (data string : List Nat) (length maxlen : Nat) (nonblock string_index : Int)
    (write_result read_result getfl_result setfl_result : Int)
    (wenv : Win.WriteEnv) (renv : Win.ReadEnv) (senv : Win.StringEnv) :
    (Linux.hid_write sl dl data write_result = { table := sl, ret := -1, calls := [] } ∧
      Linux.hid_read sl dl length read_result = { table := sl, ret := -1, calls := [] } ∧
      Linux.hid_set_nonblocking sl dl nonblock getfl_result setfl_result
        = { table := sl, ret := -1, calls := [] } ∧
      Linux.hid_get_manufacturer_string sl dl string maxlen
        = { table := sl, ret := (-1, string), calls := [] } ∧
      Linux.hid_get_product_string sl dl string maxlen
        = { table := sl, ret := (-1, string), calls := [] } ∧
      Linux.hid_get_serial_number_string sl dl string maxlen
        = { table := sl, ret := (-1, string), calls := [] } ∧
      Linux.hid_get_indexed_string sl dl string_index string maxlen
        = { table := sl, ret := (-1, string), calls := [] } ∧
      Linux.hid_error sl dl = { table := sl, ret := none, calls := [] } ∧
      Linux.hid_close sl dl = { table := sl, ret := (), calls := [] }) ∧
    (Win.hid_write sw dw data wenv = { table := sw, ret := -1, calls := [] } ∧
      Win.hid_read sw dw length renv = { table := sw, ret := -1, calls := [] } ∧
      Win.hid_set_nonblocking sw dw nonblock = { table := sw, ret := -1, calls := [] } ∧
      Win.hid_get_manufacturer_string sw dw string maxlen senv
        = { table := sw, ret := (-1, string), calls := [] } ∧
      Win.hid_get_product_string sw dw string maxlen senv
        = { table := sw, ret := (-1, string), calls := [] } ∧
      Win.hid_get_serial_number_string sw dw string maxlen senv
        = { table := sw, ret := (-1, string), calls := [] } ∧
      Win.hid_get_indexed_string sw dw string_index string maxlen senv
        = { table := sw, ret := (-1, string), calls := [] } ∧
      Win.hid_error sw dw = { table := sw, ret := none, calls := [] } ∧
      Win.hid_close sw dw = { table := sw, ret := (), calls := [] }) := by
  have gl := Linux.linux_get_handle_none sl dl hl
  have gw := Win.win_get_handle_none sw dw hw
  refine ⟨⟨?_, ?_, ?_, ?_, ?_, ?_, ?_, ?_, ?_⟩, ⟨?_, ?_, ?_, ?_, ?_, ?_, ?_, ?_, ?_⟩⟩
  · simp only [Linux.hid_write, gl]
  · simp only [Linux.hid_read, gl]
  · simp only [Linux.hid_set_nonblocking, gl]
  · simp only [Linux.hid_get_manufacturer_string, gl]
  · simp only [Linux.hid_get_product_string, gl]
  · simp only [Linux.hid_get_serial_number_string, gl]
  · simp only [Linux.hid_get_indexed_string, gl]
  · simp only [Linux.hid_error, gl]
  · simp only [Linux.hid_close, gl]
  · simp only [Win.hid_write, gw]
  · simp only [Win.hid_read, gw]
  · simp only [Win.hid_set_nonblocking, gw]
  · simp only [Win.hid_get_manufacturer_string, Win.string_query, gw]
  · simp only [Win.hid_get_product_string, Win.string_query, gw]
  · simp only [Win.hid_get_serial_number_string, Win.string_query, gw]
  · simp only [Win.hid_get_indexed_string, Win.string_query, gw]
  · simp only [Win.hid_error, gw]
  · simp only [Win.hid_close, gw]

/-- C1 at concrete inputs: handle 100 (out of range) on the Linux table and
handle 3 (a slot that is not valid) on the Windows table, both tables in their
initial state. -/
theorem C1_invalid_handle_no_effect_witness :
    (Linux.hid_write Linux.Table.initial 100 [0, 129] 2).ret = -1 ∧
      (Linux.hid_get_product_string Linux.Table.initial 100 [7] 1).ret = (-1, [7]) ∧
      (Win.hid_read Win.Table.initial 3 65 ⟨9, true, false, true, true, 65, none⟩).calls = [] ∧
      (Win.hid_error Win.Table.initial 3).ret = none := by
  have h :=
    C1_invalid_handle_no_effect Linux.Table.initial 100 (Or.inr (Or.inl (by decide)))
      Win.Table.initial 3 (Or.inr (Or.inr ⟨3, by decide, rfl⟩))
      [0, 129] [7] 65 1 1 0 2 2 0 0 ⟨true, false, true, 2, none⟩
      ⟨9, true, false, true, true, 65, none⟩ ⟨true, [], none⟩
  refine ⟨?_, ?_, ?_, ?_⟩
  · rw [h.1.1]
  · rw [h.1.2.2.2.2.1]
  · rw [h.2.2.1]
  · rw [h.2.2.2.2.2.2.2.2.1]

/-! ## C3: the slot a successful open takes -/

/-- C3 as stated fails on the first call: from the initial table (static
storage, everything zero) a successful `hid_open_path` returns handle 0, and
the lazy initialisation it runs first rewrites every other slot as well, so the
slots other than the returned one are not what they were before the call
(slot 1: `blocking` goes from 0 to 1, `device_handle` from 0 to -1 resp.
`INVALID_HANDLE_VALUE`).  Shown for both backends. -/
theorem C3_counterexample_first_open :
    ((Linux.Table.initial.devices 1).valid = false ∧
      (Linux.hid_open_path Linux.Table.initial "/dev/hidraw0" 3).ret = 0 ∧
      ¬ (∀ j : Fin MAX_DEVICES, j ≠ 0 →
          (Linux.hid_open_path Linux.Table.initial "/dev/hidraw0" 3).table.devices j
            = Linux.Table.initial.devices j)) ∧
    ((Win.Table.initial.devices 1).valid = false ∧
      (Win.hid_open_path Win.Table.initial "hid#0" 3 none).ret = 0 ∧
      ¬ (∀ j : Fin MAX_DEVICES, j ≠ 0 →
          (Win.hid_open_path Win.Table.initial "hid#0" 3 none).table.devices j
            = Win.Table.initial.devices j)) := by
  refine ⟨⟨rfl, by decide, ?_⟩, ⟨rfl, by decide, ?_⟩⟩
  · intro h
    exact absurd (congrArg Linux.Device.blocking (h 1 (by decide))) (by decide)
  · intro h
    exact absurd (congrArg Win.Device.blocking (h 1 (by decide))) (by decide)

/-- C3 (amended): on every well-formed table with a free slot, a
`hid_open_path` whose native open yields a resource the backend accepts
(Linux: a positive descriptor `fd`; Windows: a handle other than
`INVALID_HANDLE_VALUE`) makes exactly the one native open and returns the
least index `i` whose slot was free before the call; afterwards slot `i` is
valid and holds the new resource, every slot that was valid is still valid,
and every other slot is unchanged if the table had been initialised, and
holds the initial values (not valid, no resource, blocking, no error) if this
was the call that initialised the table. -/
theorem C3_open_path_least_free_slot
    (sl : Linux.Table) (hwl : sl.wf) (jl : Fin MAX_DEVICES) (hjl : (sl.devices jl).valid = false)
    (pathl : String) (fd : Int) (hfd : 0 < fd)
    (sw : Win.Table) (hww : sw.wf) (jw : Fin MAX_DEVICES) (hjw : (sw.devices jw).valid = false)
    (pathw : String) (h : Int) (hh : h ≠ Win.INVALID_HANDLE_VALUE) (msg : Option String) :
    (∃ i : Fin MAX_DEVICES,
      (Linux.hid_open_path sl pathl fd).ret = (i.val : Int) ∧
      (sl.devices i).valid = false ∧
      (∀ j : Fin MAX_DEVICES, j.val < i.val → (sl.devices j).valid = true) ∧
      ((Linux.hid_open_path sl pathl fd).table.devices i).valid = true ∧
      ((Linux.hid_open_path sl pathl fd).table.devices i).device_handle = fd ∧
      (Linux.hid_open_path sl pathl fd).calls = [Linux.NativeCall.sys_open pathl] ∧
      (∀ j, (sl.devices j).valid = true →
        ((Linux.hid_open_path sl pathl fd).table.devices j).valid = true) ∧
      (∀ j, j ≠ i → (Linux.hid_open_path sl pathl fd).table.devices j =
        if sl.devices_initialized = true then sl.devices j
        else { valid := false, device_handle := -1, blocking := true })) ∧
    (∃ i : Fin MAX_DEVICES,
      (Win.hid_open_path sw pathw h msg).ret = (i.val : Int) ∧
      (sw.devices i).valid = false ∧
      (∀ j : Fin MAX_DEVICES, j.val < i.val → (sw.devices j).valid = true) ∧
      ((Win.hid_open_path sw pathw h msg).table.devices i).valid = true ∧
      ((Win.hid_open_path sw pathw h msg).table.devices i).device_handle = h ∧
      (Win.hid_open_path sw pathw h msg).calls = [Win.NativeCall.CreateFile pathw] ∧
      (∀ j, (sw.devices j).valid = true →
        ((Win.hid_open_path sw pathw h msg).table.devices j).valid = true) ∧
      (∀ j, j ≠ i → (Win.hid_open_path sw pathw h msg).table.devices j =
        if sw.devices_initialized = true then sw.devices j
        else { valid := false, device_handle := Win.INVALID_HANDLE_VALUE, blocking := true,
               last_error_str := none, last_error_num := 0 })) := by
  constructor
  · have hv := Linux.linux_init_devices_valid sl hwl
    have hne : find_available (fun k => ((Linux.init_devices sl).devices k).valid)
        MAX_DEVICES 0 ≠ none := by
      intro hn
      have hall := (find_available_full_none _).1 hn jl
      simp only [hv] at hall
      rw [hjl] at hall
      cases hall
    obtain ⟨i, hi⟩ := Option.ne_none_iff_exists'.1 hne
    have hsp := (find_available_full_some _ i).1 hi
    simp only [hv] at hsp
    rw [Linux.linux_open_path_ok sl pathl fd i hi hfd]
    refine ⟨i, rfl, hsp.1, hsp.2, by simp, by simp, rfl, ?_, ?_⟩
    · intro j hj
      by_cases hji : j = i
      · subst hji; simp
      · simp only [Function.update_noteq hji, hv, hj]
    · intro j hji
      simp only [Function.update_noteq hji]
      unfold Linux.init_devices
      cases sl.devices_initialized <;> simp
  · have hv := Win.win_init_devices_valid sw hww
    have hne : find_available (fun k => ((Win.init_devices sw).devices k).valid)
        MAX_DEVICES 0 ≠ none := by
      intro hn
      have hall := (find_available_full_none _).1 hn jw
      simp only [hv] at hall
      rw [hjw] at hall
      cases hall
    obtain ⟨i, hi⟩ := Option.ne_none_iff_exists'.1 hne
    have hsp := (find_available_full_some _ i).1 hi
    simp only [hv] at hsp
    rw [Win.win_open_path_ok sw pathw h msg i hi hh]
    refine ⟨i, rfl, hsp.1, hsp.2, by simp, by simp, rfl, ?_, ?_⟩
    · intro j hj
      by_cases hji : j = i
      · subst hji; simp
      · simp only [Function.update_noteq hji, hv, hj]
    · intro j hji
      simp only [Function.update_noteq hji]
      unfold Win.init_devices
      cases sw.devices_initialized <;> simp

/-- C3 (amended) at concrete inputs: both tables hold one open device in slot 0
(so they are initialised and slot 1 is free); the next successful open is
given slot 1. -/
theorem C3_open_path_least_free_slot_witness :
    (∃ i : Fin MAX_DEVICES,
      (Linux.hid_open_path (Linux.hid_open_path Linux.Table.initial "/dev/hidraw0" 3).table
        "/dev/hidraw1" 4).ret = (i.val : Int) ∧
      ((Linux.hid_open_path Linux.Table.initial "/dev/hidraw0" 3).table.devices i).valid = false) ∧
    (∃ i : Fin MAX_DEVICES,
      (Win.hid_open_path (Win.hid_open_path Win.Table.initial "hid#0" 3 none).table
        "hid#1" 4 none).ret = (i.val : Int) ∧
      ((Win.hid_open_path Win.Table.initial "hid#0" 3 none).table.devices i).valid = false) := by
  have h :=
    C3_open_path_least_free_slot
      (Linux.hid_open_path Linux.Table.initial "/dev/hidraw0" 3).table
      (fun hi => absurd hi (by decide)) 1 (by decide) "/dev/hidraw1" 4 (by decide)
      (Win.hid_open_path Win.Table.initial "hid#0" 3 none).table
      (fun hi => absurd hi (by decide)) 1 (by decide) "hid#1" 4 (by decide) none
  obtain ⟨⟨i, h1, h2, _⟩, ⟨k, h3, h4, _⟩⟩ := h
  exact ⟨⟨i, h1, h2⟩, ⟨k, h3, h4⟩⟩

/-! ## C4: a failed native open allocates nothing -/

/-- C4: in both backends, on every well-formed table, a `hid_open_path` whose
native open fails (Linux: `open` returns a negative value; Windows:
`CreateFile` returns `INVALID_HANDLE_VALUE`) returns `-1` and the validity
flag of each of the 64 slots is what it was before the call; hence the handle
check accepts the same handles and the number of free slots is the same. -/
theorem C4_failed_open_allocates_nothing
    (sl : Linux.Table) (hwl : sl.wf) (pathl : String) (fd : Int) (hfd : fd < 0)
    (sw : Win.Table) (hww : sw.wf) (pathw : String) (msg : Option String) :
    ((Linux.hid_open_path sl pathl fd).ret = -1 ∧
      (∀ j, ((Linux.hid_open_path sl pathl fd).table.devices j).valid = (sl.devices j).valid) ∧
      (Finset.univ.filter
          (fun j => ((Linux.hid_open_path sl pathl fd).table.devices j).valid = false)).card
        = (Finset.univ.filter (fun j => (sl.devices j).valid = false)).card) ∧
    ((Win.hid_open_path sw pathw Win.INVALID_HANDLE_VALUE msg).ret = -1 ∧
      (∀ j, ((Win.hid_open_path sw pathw Win.INVALID_HANDLE_VALUE msg).table.devices j).valid
        = (sw.devices j).valid) ∧
      (Finset.univ.filter
          (fun j =>
            ((Win.hid_open_path sw pathw Win.INVALID_HANDLE_VALUE msg).table.devices j).valid
              = false)).card
        = (Finset.univ.filter (fun j => (sw.devices j).valid = false)).card) := by
  have hl : (Linux.hid_open_path sl pathl fd).ret = -1 ∧
      ∀ j, ((Linux.hid_open_path sl pathl fd).table.devices j).valid = (sl.devices j).valid := by
    have hv := Linux.linux_init_devices_valid sl hwl
    cases hf : find_available (fun k => ((Linux.init_devices sl).devices k).valid)
        MAX_DEVICES 0 with
    | none =>
      rw [Linux.linux_open_path_full sl pathl fd hf]
      exact ⟨rfl, hv⟩
    | some i =>
      have hsp := (find_available_full_some _ i).1 hf
      simp only [hv] at hsp
      rw [Linux.linux_open_path_rejected sl pathl fd i hf (le_of_lt hfd)]
      refine ⟨rfl, ?_⟩
      intro j
      by_cases hji : j = i
      · subst hji; simp [hsp.1]
      · simp only [Function.update_noteq hji, hv]
  have hw : (Win.hid_open_path sw pathw Win.INVALID_HANDLE_VALUE msg).ret = -1 ∧
      ∀ j, ((Win.hid_open_path sw pathw Win.INVALID_HANDLE_VALUE msg).table.devices j).valid
        = (sw.devices j).valid := by
    have hv := Win.win_init_devices_valid sw hww
    cases hf : find_available (fun k => ((Win.init_devices sw).devices k).valid)
        MAX_DEVICES 0 with
    | none =>
      rw [Win.win_open_path_full sw pathw _ msg hf]
      exact ⟨rfl, hv⟩
    | some i =>
      have hsp := (find_available_full_some _ i).1 hf
      simp only [hv] at hsp
      rw [Win.win_open_path_failed sw pathw msg i hf]
      refine ⟨rfl, ?_⟩
      intro j
      by_cases hji : j = i
      · subst hji; simp [hsp.1]
      · simp only [Function.update_noteq hji, hv]
  refine ⟨⟨hl.1, hl.2, ?_⟩, ⟨hw.1, hw.2, ?_⟩⟩
  · simp only [hl.2]
  · simp only [hw.2]

/-- C4 at concrete inputs: one device open in slot 0, then an open that fails
natively. -/
theorem C4_failed_open_allocates_nothing_witness :
    (Linux.hid_open_path (Linux.hid_open_path Linux.Table.initial "/dev/hidraw0" 3).table
        "/dev/none" (-1)).ret = -1 ∧
    (∀ j, ((Win.hid_open_path (Win.hid_open_path Win.Table.initial "hid#0" 3 none).table
        "hid#none" Win.INVALID_HANDLE_VALUE (some "not found")).table.devices j).valid
      = ((Win.hid_open_path Win.Table.initial "hid#0" 3 none).table.devices j).valid) := by
  have h :=
    C4_failed_open_allocates_nothing
      (Linux.hid_open_path Linux.Table.initial "/dev/hidraw0" 3).table
      (fun hi => absurd hi (by decide)) "/dev/none" (-1) (by decide)
      (Win.hid_open_path Win.Table.initial "hid#0" 3 none).table
      (fun hi => absurd hi (by decide)) "hid#none" (some "not found")
  exact ⟨h.1.1, h.2.2.1⟩

/-! ## C6: what `hid_close` does to the table -/

/-- C6: in both backends, for every table and every valid handle `h`,
`hid_close(h)` releases the native resource of slot `h` exactly once (Linux:
the one call is `close(fd)`; Windows: one `CloseHandle` of the slot's handle,
followed by the `LocalFree` of the stored message), afterwards slot `h` is
not valid and `hid_error(h)` returns no diagnostic, every other slot is
exactly what it was, and a second `hid_close(h)` makes no native call and
leaves the table as it is. -/
theorem C6_close_releases_once_and_clears
    (sl : Linux.Table) (il : Fin MAX_DEVICES) (hl : (sl.devices il).valid = true)
    (sw : Win.Table) (iw : Fin MAX_DEVICES) (hw : (sw.devices iw).valid = true) :
    ((Linux.hid_close sl il.val).calls = [Linux.NativeCall.sys_close (sl.devices il).device_handle] ∧
      ((Linux.hid_close sl il.val).table.devices il).valid = false ∧
      (Linux.hid_error (Linux.hid_close sl il.val).table il.val).ret = none ∧
      (∀ j, j ≠ il → (Linux.hid_close sl il.val).table.devices j = sl.devices j) ∧
      (Linux.hid_close sl il.val).table.devices_initialized = sl.devices_initialized ∧
      Linux.hid_close (Linux.hid_close sl il.val).table il.val
        = { table := (Linux.hid_close sl il.val).table, ret := (), calls := [] }) ∧
    ((Win.hid_close sw iw.val).calls
        = [Win.NativeCall.CloseHandle (sw.devices iw).device_handle,
            Win.NativeCall.LocalFree (sw.devices iw).last_error_str] ∧
      (Win.hid_close sw iw.val).calls.count
        (Win.NativeCall.CloseHandle (sw.devices iw).device_handle) = 1 ∧
      ((Win.hid_close sw iw.val).table.devices iw).valid = false ∧
      (Win.hid_error (Win.hid_close sw iw.val).table iw.val).ret = none ∧
      (∀ j, j ≠ iw → (Win.hid_close sw iw.val).table.devices j = sw.devices j) ∧
      (Win.hid_close sw iw.val).table.devices_initialized = sw.devices_initialized ∧
      Win.hid_close (Win.hid_close sw iw.val).table iw.val
        = { table := (Win.hid_close sw iw.val).table, ret := (), calls := [] }) := by
  have el : Linux.hid_close sl il.val =
      { table :=
          { sl with
            devices := Function.update sl.devices il ({ sl.devices il with valid := false }) }
        ret := ()
        calls := [Linux.NativeCall.sys_close (sl.devices il).device_handle] } := by
    simp only [Linux.hid_close, Linux.linux_get_handle_some sl il hl]
  have ew : Win.hid_close sw iw.val =
      { table :=
          { sw with
            devices := Function.update sw.devices iw
              ({ sw.devices iw with
                  device_handle := Win.INVALID_HANDLE_VALUE, last_error_str := none,
                  valid := false }) }
        ret := ()
        calls := [Win.NativeCall.CloseHandle (sw.devices iw).device_handle,
                  Win.NativeCall.LocalFree (sw.devices iw).last_error_str] } := by
    simp only [Win.hid_close, Win.win_get_handle_some sw iw hw]
  have nl : Linux.get_handle (Linux.hid_close sl il.val).table il.val = none := by
    apply Linux.linux_get_handle_none
    exact Or.inr (Or.inr ⟨il, rfl, by rw [el]; simp⟩)
  have nw : Win.get_handle (Win.hid_close sw iw.val).table iw.val = none := by
    apply Win.win_get_handle_none
    exact Or.inr (Or.inr ⟨iw, rfl, by rw [ew]; simp⟩)
  refine ⟨⟨by rw [el], by rw [el]; simp, ?_, ?_, by rw [el], ?_⟩,
    ⟨by rw [ew], by rw [ew]; simp, by rw [ew]; simp, ?_, ?_, by rw [ew], ?_⟩⟩
  · exact congrArg Linux.Outcome.ret (Linux.linux_hid_error_of_none _ _ nl)
  · intro j hj
    rw [el]
    simp only [Function.update_noteq hj]
  · exact Linux.linux_hid_close_of_none _ _ nl
  · exact congrArg Win.Outcome.ret (Win.win_hid_error_of_none _ _ nw)
  · intro j hj
    rw [ew]
    simp only [Function.update_noteq hj]
  · exact Win.win_hid_close_of_none _ _ nw

/-- C6 at concrete inputs: the handle 0 returned by the first open is closed,
then closed again. -/
theorem C6_close_releases_once_and_clears_witness :
    (Linux.hid_close (Linux.hid_open_path Linux.Table.initial "/dev/hidraw0" 3).table 0).calls
        = [Linux.NativeCall.sys_close 3] ∧
    (Win.hid_error
        (Win.hid_close (Win.hid_open_path Win.Table.initial "hid#0" 3 none).table 0).table 0).ret
      = none := by
  have h :=
    C6_close_releases_once_and_clears
      (Linux.hid_open_path Linux.Table.initial "/dev/hidraw0" 3).table 0 (by decide)
      (Win.hid_open_path Win.Table.initial "hid#0" 3 none).table 0 (by decide)
  exact ⟨h.1.1, h.2.2.2.2.1⟩

/-! ## C8: `hid_set_nonblocking` of the Linux backend -/

/-- C8: in the Linux backend, for every valid handle `i` and every `nonblock`,
`hid_set_nonblocking` returns 0 exactly when both `fcntl` calls succeed
(`F_GETFL` returns `g ≥ 0` and `F_SETFL` returns `r ≥ 0`).  In that case the
slot's blocking flag becomes `nonblock == 0`, and the flags passed to `F_SETFL`
are the flags read with the bits of `O_NONBLOCK` set when `nonblock ≠ 0` and
cleared when `nonblock = 0`, every other bit as read.  Otherwise it returns
`-1` and the blocking flag is unchanged.  In every case the validity flag and
descriptor of slot `i` and every other slot are unchanged. -/
theorem C8_linux_set_nonblocking
    (s : Linux.Table) (i : Fin MAX_DEVICES) (hv : (s.devices i).valid = true)
    (nonblock g r : Int) :
    ((Linux.hid_set_nonblocking s i.val nonblock g r).ret = 0 ↔ (0 ≤ g ∧ 0 ≤ r)) ∧
    (0 ≤ g ∧ 0 ≤ r →
      ((Linux.hid_set_nonblocking s i.val nonblock g r).table.devices i).blocking
          = decide (nonblock = 0) ∧
      ∃ w, (Linux.hid_set_nonblocking s i.val nonblock g r).calls
          = [Linux.NativeCall.fcntl_getfl (s.devices i).device_handle,
              Linux.NativeCall.fcntl_setfl (s.devices i).device_handle w] ∧
        ∀ k : Nat, Int.testBit w k =
          if Int.testBit Linux.O_NONBLOCK k = true then decide (nonblock ≠ 0)
          else Int.testBit g k) ∧
    (¬ (0 ≤ g ∧ 0 ≤ r) →
      (Linux.hid_set_nonblocking s i.val nonblock g r).ret = -1 ∧
      ((Linux.hid_set_nonblocking s i.val nonblock g r).table.devices i).blocking
          = (s.devices i).blocking) ∧
    ((Linux.hid_set_nonblocking s i.val nonblock g r).table.devices i).valid
        = (s.devices i).valid ∧
    ((Linux.hid_set_nonblocking s i.val nonblock g r).table.devices i).device_handle
        = (s.devices i).device_handle ∧
    (∀ j, j ≠ i →
      (Linux.hid_set_nonblocking s i.val nonblock g r).table.devices j = s.devices j) ∧
    (Linux.hid_set_nonblocking s i.val nonblock g r).table.devices_initialized
        = s.devices_initialized := by
  have hg := Linux.linux_get_handle_some s i hv
  by_cases h1 : 0 ≤ g
  · by_cases h2 : 0 ≤ r
    · have e : Linux.hid_set_nonblocking s i.val nonblock g r =
          { table :=
              { s with
                devices := Function.update s.devices i
                  ({ s.devices i with blocking := (nonblock == 0) }) }
            ret := 0
            calls :=
              [Linux.NativeCall.fcntl_getfl (s.devices i).device_handle,
                Linux.NativeCall.fcntl_setfl (s.devices i).device_handle
                  (if nonblock ≠ 0 then Int.lor g Linux.O_NONBLOCK
                   else Int.land g (Int.lnot Linux.O_NONBLOCK))] } := by
        simp only [Linux.hid_set_nonblocking, hg]
        rw [if_pos (by simpa using h1), if_neg (by simpa using h2)]
      rw [e]
      refine ⟨by simp [h1, h2], ?_, ?_, by simp, by simp, ?_, rfl⟩
      · intro _
        refine ⟨by simp only [Function.update_same]; rfl, _, rfl, ?_⟩
        intro k
        by_cases hn : nonblock = 0
        · simp only [hn, ne_eq, not_true_eq_false, if_false, Int.testBit_land, Int.testBit_lnot]
          cases Int.testBit Linux.O_NONBLOCK k <;> simp
        · simp only [hn, ne_eq, not_false_eq_true, if_true, Int.testBit_lor]
          cases Int.testBit Linux.O_NONBLOCK k <;> simp
      · intro hc
        exact absurd ⟨h1, h2⟩ hc
      · intro j hj
        simp only [Function.update_noteq hj]
    · have e : Linux.hid_set_nonblocking s i.val nonblock g r =
          { table := s
            ret := -1
            calls :=
              [Linux.NativeCall.fcntl_getfl (s.devices i).device_handle,
                Linux.NativeCall.fcntl_setfl (s.devices i).device_handle
                  (if nonblock ≠ 0 then Int.lor g Linux.O_NONBLOCK
                   else Int.land g (Int.lnot Linux.O_NONBLOCK))] } := by
        simp only [Linux.hid_set_nonblocking, hg]
        rw [if_pos (by simpa using h1), if_pos (by simpa using h2)]
      rw [e]
      refine ⟨by simp [h2], ?_, ?_, rfl, rfl, fun _ _ => rfl, rfl⟩
      · intro hc
        exact absurd hc.2 h2
      · intro _
        exact ⟨rfl, rfl⟩
  · have e : Linux.hid_set_nonblocking s i.val nonblock g r =
        { table := s
          ret := -1
          calls := [Linux.NativeCall.fcntl_getfl (s.devices i).device_handle] } := by
      simp only [Linux.hid_set_nonblocking, hg]
      rw [if_neg (by simpa using h1)]
    rw [e]
    refine ⟨by simp [h1], ?_, ?_, rfl, rfl, fun _ _ => rfl, rfl⟩
    · intro hc
      exact absurd hc.1 h1
    · intro _
      exact ⟨rfl, rfl⟩

/-- C8 at concrete inputs: the handle 0 of the first open is switched to
non-blocking; the descriptor flags read are `O_RDWR` (2) and both `fcntl`
calls succeed. -/
theorem C8_linux_set_nonblocking_witness :
    (Linux.hid_set_nonblocking (Linux.hid_open_path Linux.Table.initial "/dev/hidraw0" 3).table
        0 1 2 0).ret = 0 ↔ ((0 : Int) ≤ 2 ∧ (0 : Int) ≤ 0) :=
  (C8_linux_set_nonblocking (Linux.hid_open_path Linux.Table.initial "/dev/hidraw0" 3).table
    0 (by decide) 1 2 0).1

/-! ## C9: the non-blocking read of the Windows backend -/

/-- C9: in the Windows backend, for every valid handle `i` whose blocking flag
is clear: when `ReadFile` is issued (it returns `TRUE`, or `FALSE` with
`ERROR_IO_PENDING`) and `WaitForSingleObject(ev, 0)` does not report the event
signaled, `hid_read` ends with `CancelIo` on the device handle (and never
reaches `GetOverlappedResult` or `register_error`), returns 0, and leaves the
table exactly as it was, so no diagnostic is recorded and the handle still
passes the handle check. -/
theorem C9_win_nonblocking_read_returns_zero
    (s : Win.Table) (i : Fin MAX_DEVICES) (hv : (s.devices i).valid = true)
    (hb : (s.devices i).blocking = false) (length : Nat) (env : Win.ReadEnv)
    (hissued : env.read_res = true ∨ env.io_pending = true) (hns : env.signaled = false) :
    (Win.hid_read s i.val length env).ret = 0 ∧
    (Win.hid_read s i.val length env).table = s ∧
    (Win.hid_read s i.val length env).calls =
      [Win.NativeCall.CreateEvent,
        Win.NativeCall.ReadFile (s.devices i).device_handle length env.ev] ++
      (if env.read_res = false then [Win.NativeCall.GetLastError] else []) ++
      [Win.NativeCall.WaitForSingleObject env.ev, Win.NativeCall.CloseHandle env.ev,
        Win.NativeCall.CancelIo (s.devices i).device_handle] ∧
    (Win.hid_error (Win.hid_read s i.val length env).table i.val).ret
      = (Win.hid_error s i.val).ret ∧
    Win.get_handle (Win.hid_read s i.val length env).table i.val = some i := by
  have hg := Win.win_get_handle_some s i hv
  have hnf : ¬ (env.read_res = false ∧ env.io_pending = false) := by
    rintro ⟨h1, h2⟩
    rcases hissued with h | h
    · rw [h1] at h; cases h
    · rw [h2] at h; cases h
  have e : Win.hid_read s i.val length env =
      { table := s
        ret := 0
        calls :=
          [Win.NativeCall.CreateEvent,
            Win.NativeCall.ReadFile (s.devices i).device_handle length env.ev] ++
          (if env.read_res = false then [Win.NativeCall.GetLastError] else []) ++
          [Win.NativeCall.WaitForSingleObject env.ev, Win.NativeCall.CloseHandle env.ev,
            Win.NativeCall.CancelIo (s.devices i).device_handle] } := by
    simp only [Win.hid_read, hg]
    rw [if_neg hnf, if_pos ⟨hb, hns⟩]
    cases env.read_res <;> simp [hb]
  rw [e]
  exact ⟨rfl, rfl, rfl, rfl, hg⟩

/-- C9 at concrete inputs: handle 0 is opened, switched to non-blocking, and
read while the device has nothing to deliver (`ReadFile` pending, event not
signaled). -/
theorem C9_win_nonblocking_read_returns_zero_witness :
    (Win.hid_read
        (Win.hid_set_nonblocking (Win.hid_open_path Win.Table.initial "hid#0" 3 none).table
          0 1).table
        0 65 ⟨9, false, true, false, true, 65, none⟩).ret = 0 :=
  (C9_win_nonblocking_read_returns_zero
    (Win.hid_set_nonblocking (Win.hid_open_path Win.Table.initial "hid#0" 3 none).table 0 1).table
    0 (by decide) (by decide) 65 ⟨9, false, true, false, true, 65, none⟩
    (Or.inr rfl) rfl).1

/-! ## C10: what the Linux `hid_enumerate` returns -/

/-- What `copy_udev_string` does: `NULL` for a missing attribute, the
conversion for an attribute that converts (whatever its length), and an
out-of-bounds write for an attribute `mbstowcs` rejects. -/
theorem linux_copy_udev_string_eq (mbstowcs : String → Option (List Nat))
    (dev : Linux.udev_device) (udev_name : String) :
    Linux.copy_udev_string mbstowcs dev udev_name =
      match Linux.udev_device_get_sysattr_value dev udev_name with
      | none => Result.ok none
      | some str =>
        match mbstowcs str with
        | some w => Result.ok (some w)
        | none => Result.fault Fault.copy_out_of_bounds := by
  unfold Linux.copy_udev_string
  cases Linux.udev_device_get_sysattr_value dev udev_name with
  | none => rfl
  | some str =>
    simp only
    cases mbstowcs str with
    | none => rfl
    | some w => simp

/-- When `copy_udev_string` completes, its result is the conversion of the
attribute, if there is one. -/
theorem linux_copy_udev_string_ok (mbstowcs : String → Option (List Nat))
    (dev : Linux.udev_device) (udev_name : String) (x : Option (List Nat))
    (h : Linux.copy_udev_string mbstowcs dev udev_name = Result.ok x) :
    x = (Linux.udev_device_get_sysattr_value dev udev_name).bind mbstowcs := by
  rw [linux_copy_udev_string_eq] at h
  cases ha : Linux.udev_device_get_sysattr_value dev udev_name with
  | none =>
    rw [ha] at h
    injection h with h
    rw [← h]
    rfl
  | some str =>
    rw [ha] at h
    simp only at h
    cases hm : mbstowcs str with
    | none =>
      rw [hm] at h
      cases h
    | some w =>
      rw [hm] at h
      injection h with h
      rw [← h]
      simp [hm]

/-- When the enumeration loop completes, it has appended, to the list built so
far and in the order of the OS list, one record for every remaining entry that
has a USB parent and passes the filter. -/
theorem linux_enumerate_loop_ok (strtol16 : String → Int)
    (mbstowcs : String → Option (List Nat)) (vendor_id product_id : Nat)
    (devices : List Linux.hidraw_entry) :
    ∀ (root devs : List hid_device),
      Linux.enumerate_loop strtol16 mbstowcs vendor_id product_id devices root = Result.ok devs →
      devs = root ++
        devices.filterMap (Linux.selected_record strtol16 mbstowcs vendor_id product_id) := by
  induction devices with
  | nil =>
    intro root devs h
    simp only [Linux.enumerate_loop] at h
    injection h with h
    simp [h]
  | cons e rest ih =>
    intro root devs h
    cases hp : e.usb_parent with
    | none =>
      simp only [Linux.enumerate_loop, hp] at h
      rw [ih root devs h]
      simp [Linux.selected_record, hp]
    | some dev =>
      by_cases hm : (vendor_id = 0 ∧ product_id = 0) ∨
          (vendor_id = Linux.read_id strtol16 dev "idVendor" ∧
            product_id = Linux.read_id strtol16 dev "idProduct")
      · have hm2 : (vendor_id = 0 ∧ product_id = 0) ∨
            (Linux.read_id strtol16 dev "idVendor" = vendor_id ∧
              Linux.read_id strtol16 dev "idProduct" = product_id) := by
          rcases hm with h1 | ⟨h1, h2⟩
          · exact Or.inl h1
          · exact Or.inr ⟨h1.symm, h2.symm⟩
        simp only [Linux.enumerate_loop, hp, if_pos hm] at h
        cases h1 : Linux.copy_udev_string mbstowcs dev "serial" with
        | fault f => rw [h1] at h; cases h
        | ok serial =>
          cases h2 : Linux.copy_udev_string mbstowcs dev "manufacturer" with
          | fault f => rw [h1, h2] at h; cases h
          | ok manufacturer =>
            cases h3 : Linux.copy_udev_string mbstowcs dev "product" with
            | fault f => rw [h1, h2, h3] at h; cases h
            | ok product =>
              rw [h1, h2, h3] at h
              rw [ih _ devs h]
              simp [Linux.selected_record, hp, if_pos hm2,
                linux_copy_udev_string_ok mbstowcs dev "serial" serial h1,
                linux_copy_udev_string_ok mbstowcs dev "manufacturer" manufacturer h2,
                linux_copy_udev_string_ok mbstowcs dev "product" product h3]
      · have hm2 : ¬ ((vendor_id = 0 ∧ product_id = 0) ∨
            (Linux.read_id strtol16 dev "idVendor" = vendor_id ∧
              Linux.read_id strtol16 dev "idProduct" = product_id)) := by
          intro hc
          apply hm
          rcases hc with h1 | ⟨h1, h2⟩
          · exact Or.inl h1
          · exact Or.inr ⟨h1.symm, h2.symm⟩
        simp only [Linux.enumerate_loop, hp, if_neg hm] at h
        rw [ih root devs h]
        simp [Linux.selected_record, hp, if_neg hm2]

/-- When every attribute of every USB parent converts, the enumeration loop
completes. -/
theorem linux_enumerate_loop_of_convertible (strtol16 : String → Int)
    (mbstowcs : String → Option (List Nat)) (vendor_id product_id : Nat)
    (devices : List Linux.hidraw_entry)
    (hconv : ∀ e ∈ devices, ∀ dev, e.usb_parent = some dev → ∀ name str,
      Linux.udev_device_get_sysattr_value dev name = some str → mbstowcs str ≠ none) :
    ∀ root : List hid_device, ∃ devs,
      Linux.enumerate_loop strtol16 mbstowcs vendor_id product_id devices root
        = Result.ok devs := by
  induction devices with
  | nil => intro root; exact ⟨root, rfl⟩
  | cons e rest ih =>
    intro root
    have ih2 := ih (fun x hx => hconv x (List.mem_cons_of_mem _ hx))
    have hcopy : ∀ dev, e.usb_parent = some dev → ∀ name, ∃ x,
        Linux.copy_udev_string mbstowcs dev name = Result.ok x := by
      intro dev hdev name
      rw [linux_copy_udev_string_eq]
      cases ha : Linux.udev_device_get_sysattr_value dev name with
      | none => exact ⟨none, rfl⟩
      | some str =>
        simp only
        cases hm : mbstowcs str with
        | none => exact absurd hm (hconv e (List.mem_cons_self _ _) dev hdev name str ha)
        | some w => exact ⟨some w, rfl⟩
    cases hp : e.usb_parent with
    | none =>
      simp only [Linux.enumerate_loop, hp]
      exact ih2 root
    | some dev =>
      obtain ⟨x1, h1⟩ := hcopy dev hp "serial"
      obtain ⟨x2, h2⟩ := hcopy dev hp "manufacturer"
      obtain ⟨x3, h3⟩ := hcopy dev hp "product"
      simp only [Linux.enumerate_loop, hp, h1, h2, h3]
      split
      · exact ih2 _
      · exact ih2 root

/-- Linux backend, C10 for convertible strings: when every attribute of every
USB parent converts in the current locale, `hid_enumerate` returns, in the
order of the OS list and one record per device, exactly the devices for which
a USB parent was found and that pass the filter, each with its path and ids;
for a pair other than `(0, 0)` every record has the ids of the pair. -/
theorem linux_enumerate_of_convertible (strtol16 : String → Int)
    (mbstowcs : String → Option (List Nat)) (devices : List Linux.hidraw_entry)
    (vendor_id product_id : Nat)
    (hconv : ∀ e ∈ devices, ∀ dev, e.usb_parent = some dev → ∀ name str,
      Linux.udev_device_get_sysattr_value dev name = some str → mbstowcs str ≠ none) :
    Linux.hid_enumerate strtol16 mbstowcs (some devices) vendor_id product_id =
      Result.ok
        (devices.filterMap (Linux.selected_record strtol16 mbstowcs vendor_id product_id)) := by
  obtain ⟨devs, hd⟩ :=
    linux_enumerate_loop_of_convertible strtol16 mbstowcs vendor_id product_id devices hconv []
  have := linux_enumerate_loop_ok strtol16 mbstowcs vendor_id product_id devices [] devs hd
  simp only [Linux.hid_enumerate, hd, this, List.nil_append]

/-- C10 fails in the Linux backend: one hidraw device with a USB parent whose
`manufacturer` attribute holds a character outside the 7-bit range, enumerated
in a locale with a 7-bit character set.  `mbstowcs(NULL, str, 0)` returns `(size_t)-1`, which
`copy_udev_string` does not test: it allocates `wlen+1 = 0` characters and
writes `ret[wlen]` outside the allocation.  `hid_enumerate(0, 0)` does not
return the record of the device (path `/dev/hidraw0`, ids 04d8:003f) but
leaves defined behaviour.  With an attribute that converts the same device is
returned. -/
theorem C10_linux_enumerate_unconvertible_attribute :
    Linux.hid_enumerate (fun str => if str = "04d8" then 1240 else 63) Linux.mbstowcs_c_locale
        (some [⟨some "/dev/hidraw0",
          some ⟨[("idVendor", "04d8"), ("idProduct", "003f"), ("manufacturer", "café")]⟩⟩])
        0 0 = Result.fault Fault.copy_out_of_bounds ∧
    (Linux.hid_enumerate (fun str => if str = "04d8" then 1240 else 63) Linux.mbstowcs_c_locale
        (some [⟨some "/dev/hidraw0",
          some ⟨[("idVendor", "04d8"), ("idProduct", "003f"), ("manufacturer", "cafe")]⟩⟩])
        0 0).map (fun devs => devs.map (fun d => (d.path, d.vendor_id, d.product_id)))
      = Result.ok [(some "/dev/hidraw0", 1240, 63)] := by
  decide

/-! ## C7: the blocking flag of a reused slot -/

/-- C7 fails in both backends: after open, `hid_set_nonblocking(h, 1)`,
`hid_close(h)`, the next successful `hid_open_path` returns the same handle 0,
the slot is valid, and its blocking flag is still clear (non-blocking): neither
`hid_close` nor `hid_open_path` writes the flag.  On Windows a `hid_read` on the
new handle therefore takes the non-blocking path and returns 0 at once when
the read is pending. -/
theorem C7_reopened_slot_keeps_nonblocking :
    (Linux.reopen_after_nonblocking.ret = 0 ∧
      (Linux.reopen_after_nonblocking.table.devices 0).valid = true ∧
      (Linux.reopen_after_nonblocking.table.devices 0).device_handle = 4 ∧
      (Linux.reopen_after_nonblocking.table.devices 0).blocking = false) ∧
    (Win.reopen_after_nonblocking.ret = 0 ∧
      (Win.reopen_after_nonblocking.table.devices 0).valid = true ∧
      (Win.reopen_after_nonblocking.table.devices 0).device_handle = 4 ∧
      (Win.reopen_after_nonblocking.table.devices 0).blocking = false ∧
      (Win.hid_read Win.reopen_after_nonblocking.table 0 65
          ⟨9, false, true, false, true, 65, none⟩).ret = 0) := by
  decide

/-! ## C2: filling the table -/

namespace Linux

/-- After the lazy initialisation the flag is set. -/
theorem linux_init_devices_initialized (s : Table) :
    (init_devices s).devices_initialized = true := by
  unfold init_devices
  cases h : s.devices_initialized <;> simp [h]

/-- The lazy initialisation leaves an initialised table alone. -/
theorem linux_init_devices_of_initialized (s : Table) (h : s.devices_initialized = true) :
    init_devices s = s := by
  unfold init_devices
  simp [h]

/-- `hid_open_path` always leaves an initialised table behind. -/
theorem linux_open_path_initialized (s : Table) (path : String) (fd : Int) :
    (hid_open_path s path fd).table.devices_initialized = true := by
  have hi := linux_init_devices_initialized s
  cases hf : find_available (fun k => ((init_devices s).devices k).valid) MAX_DEVICES 0 with
  | none =>
    rw [linux_open_path_full s path fd hf]
    exact hi
  | some i =>
    by_cases hfd : 0 < fd
    · rw [linux_open_path_ok s path fd i hf hfd]
      exact hi
    · rw [linux_open_path_rejected s path fd i hf (not_lt.1 hfd)]
      exact hi

/-- One step of filling the table: when exactly the slots below `k` are valid
(after the lazy initialisation) and the descriptor is positive, the open
returns `k` and exactly the slots below `k + 1` are valid afterwards. -/
theorem linux_open_path_fill_step (s : Table) (k : Nat) (hk : k < MAX_DEVICES)
    (hinv : ∀ j : Fin MAX_DEVICES, ((init_devices s).devices j).valid = decide (j.val < k))
    (path : String) (fd : Int) (hfd : 0 < fd) :
    (hid_open_path s path fd).ret = (k : Int) ∧
    (hid_open_path s path fd).calls = [NativeCall.sys_open path] ∧
    ∀ j : Fin MAX_DEVICES,
      ((hid_open_path s path fd).table.devices j).valid = decide (j.val < k + 1) := by
  have hf : find_available (fun j => ((init_devices s).devices j).valid) MAX_DEVICES 0
      = some ⟨k, hk⟩ := by
    rw [find_available_full_some]
    refine ⟨by simp [hinv], ?_⟩
    intro j hj
    simp only [hinv]
    exact decide_eq_true hj
  rw [linux_open_path_ok s path fd ⟨k, hk⟩ hf hfd]
  refine ⟨rfl, rfl, ?_⟩
  intro j
  by_cases hjk : j = ⟨k, hk⟩
  · subst hjk
    simp
  · have hne : j.val ≠ k := fun h => hjk (Fin.ext h)
    simp only [Function.update_noteq hjk, hinv]
    by_cases hlt : j.val < k
    · simp [hlt, Nat.lt_succ_of_lt hlt]
    · have : ¬ j.val < k + 1 := by omega
      simp [hlt, this]

/-- Filling the table: a run of opens with positive descriptors, started when
exactly the slots below `k` are valid and short enough to fit, returns the
handles `k, k + 1, ...` in order and leaves exactly the slots below
`k + length` valid. -/
theorem linux_open_many_fill (reqs : List (String × Int)) :
    ∀ (s : Table) (k : Nat), k + reqs.length ≤ MAX_DEVICES →
      (∀ j : Fin MAX_DEVICES, ((init_devices s).devices j).valid = decide (j.val < k)) →
      (∀ r ∈ reqs, 0 < r.2) →
      (open_many s reqs).2 = (List.range' k reqs.length).map (fun n : Nat => (n : Int)) ∧
      (∀ j : Fin MAX_DEVICES,
        ((init_devices (open_many s reqs).1).devices j).valid
          = decide (j.val < k + reqs.length)) ∧
      (reqs ≠ [] → (open_many s reqs).1.devices_initialized = true) := by
  induction reqs with
  | nil =>
    intro s k _ hinv _
    exact ⟨rfl, by simpa using hinv, fun h => absurd rfl h⟩
  | cons r rest ih =>
    intro s k hlen hinv hpos
    obtain ⟨path, fd⟩ := r
    have hfd : 0 < fd := hpos (path, fd) (List.mem_cons_self _ _)
    have hk : k < MAX_DEVICES := by
      simp only [List.length_cons] at hlen
      omega
    obtain ⟨h1, _, h3⟩ := linux_open_path_fill_step s k hk hinv path fd hfd
    have hinit := linux_open_path_initialized s path fd
    have hinv2 : ∀ j : Fin MAX_DEVICES,
        ((init_devices (hid_open_path s path fd).table).devices j).valid
          = decide (j.val < k + 1) := by
      rw [linux_init_devices_of_initialized _ hinit]
      exact h3
    obtain ⟨g1, g2, g3⟩ := ih (hid_open_path s path fd).table (k + 1)
      (by simp only [List.length_cons] at hlen; omega) hinv2
      (fun r hr => hpos r (List.mem_cons_of_mem _ hr))
    refine ⟨?_, ?_, ?_⟩
    · simp only [open_many, h1, g1, List.length_cons, List.range'_succ, List.map_cons]
    · intro j
      simp only [open_many, g2, List.length_cons]
      congr 1
      exact propext (by omega)
    · intro _
      by_cases hr : rest = []
      · subst hr
        exact hinit
      · exact g3 hr

end Linux

namespace Win

/-- After the lazy initialisation the flag is set. -/
theorem win_init_devices_initialized (s : Table) :
    (init_devices s).devices_initialized = true := by
  unfold init_devices
  cases h : s.devices_initialized <;> simp [h]

/-- The lazy initialisation leaves an initialised table alone. -/
theorem win_init_devices_of_initialized (s : Table) (h : s.devices_initialized = true) :
    init_devices s = s := by
  unfold init_devices
  simp [h]

/-- `hid_open_path` always leaves an initialised table behind. -/
theorem win_open_path_initialized (s : Table) (path : String) (h : Int) (msg : Option String) :
    (hid_open_path s path h msg).table.devices_initialized = true := by
  have hi := win_init_devices_initialized s
  cases hf : find_available (fun k => ((init_devices s).devices k).valid) MAX_DEVICES 0 with
  | none =>
    rw [win_open_path_full s path h msg hf]
    exact hi
  | some i =>
    by_cases hh : h = INVALID_HANDLE_VALUE
    · subst hh
      rw [win_open_path_failed s path msg i hf]
      exact hi
    · rw [win_open_path_ok s path h msg i hf hh]
      exact hi

/-- One step of filling the table: when exactly the slots below `k` are valid
(after the lazy initialisation) and `CreateFile` returns a handle other than
`INVALID_HANDLE_VALUE`, the open returns `k` and exactly the slots below
`k + 1` are valid afterwards. -/
theorem win_open_path_fill_step (s : Table) (k : Nat) (hk : k < MAX_DEVICES)
    (hinv : ∀ j : Fin MAX_DEVICES, ((init_devices s).devices j).valid = decide (j.val < k))
    (path : String) (h : Int) (msg : Option String) (hh : h ≠ INVALID_HANDLE_VALUE) :
    (hid_open_path s path h msg).ret = (k : Int) ∧
    (hid_open_path s path h msg).calls = [NativeCall.CreateFile path] ∧
    ∀ j : Fin MAX_DEVICES,
      ((hid_open_path s path h msg).table.devices j).valid = decide (j.val < k + 1) := by
  have hf : find_available (fun j => ((init_devices s).devices j).valid) MAX_DEVICES 0
      = some ⟨k, hk⟩ := by
    rw [find_available_full_some]
    refine ⟨by simp [hinv], ?_⟩
    intro j hj
    simp only [hinv]
    exact decide_eq_true hj
  rw [win_open_path_ok s path h msg ⟨k, hk⟩ hf hh]
  refine ⟨rfl, rfl, ?_⟩
  intro j
  by_cases hjk : j = ⟨k, hk⟩
  · subst hjk
    simp
  · have hne : j.val ≠ k := fun h => hjk (Fin.ext h)
    simp only [Function.update_noteq hjk, hinv]
    by_cases hlt : j.val < k
    · simp [hlt, Nat.lt_succ_of_lt hlt]
    · have : ¬ j.val < k + 1 := by omega
      simp [hlt, this]

/-- Filling the table: a run of opens that all obtain a handle, started when
exactly the slots below `k` are valid and short enough to fit, returns the
handles `k, k + 1, ...` in order and leaves exactly the slots below
`k + length` valid. -/
theorem win_open_many_fill (reqs : List (String × Int × Option String)) :
    ∀ (s : Table) (k : Nat), k + reqs.length ≤ MAX_DEVICES →
      (∀ j : Fin MAX_DEVICES, ((init_devices s).devices j).valid = decide (j.val < k)) →
      (∀ r ∈ reqs, r.2.1 ≠ INVALID_HANDLE_VALUE) →
      (open_many s reqs).2 = (List.range' k reqs.length).map (fun n : Nat => (n : Int)) ∧
      (∀ j : Fin MAX_DEVICES,
        ((init_devices (open_many s reqs).1).devices j).valid
          = decide (j.val < k + reqs.length)) ∧
      (reqs ≠ [] → (open_many s reqs).1.devices_initialized = true) := by
  induction reqs with
  | nil =>
    intro s k _ hinv _
    exact ⟨rfl, by simpa using hinv, fun h => absurd rfl h⟩
  | cons r rest ih =>
    intro s k hlen hinv hpos
    obtain ⟨path, h, msg⟩ := r
    have hh : h ≠ INVALID_HANDLE_VALUE := hpos (path, h, msg) (List.mem_cons_self _ _)
    have hk : k < MAX_DEVICES := by
      simp only [List.length_cons] at hlen
      omega
    obtain ⟨h1, _, h3⟩ := win_open_path_fill_step s k hk hinv path h msg hh
    have hinit := win_open_path_initialized s path h msg
    have hinv2 : ∀ j : Fin MAX_DEVICES,
        ((init_devices (hid_open_path s path h msg).table).devices j).valid
          = decide (j.val < k + 1) := by
      rw [win_init_devices_of_initialized _ hinit]
      exact h3
    obtain ⟨g1, g2, g3⟩ := ih (hid_open_path s path h msg).table (k + 1)
      (by simp only [List.length_cons] at hlen; omega) hinv2
      (fun r hr => hpos r (List.mem_cons_of_mem _ hr))
    refine ⟨?_, ?_, ?_⟩
    · simp only [open_many, h1, g1, List.length_cons, List.range'_succ, List.map_cons]
    · intro j
      simp only [open_many, g2, List.length_cons]
      congr 1
      exact propext (by omega)
    · intro _
      by_cases hr : rest = []
      · subst hr
        exact hinit
      · exact g3 hr

end Win

/-- Windows backend, the whole of C2: from the initial table, 64 consecutive
opens that all obtain a handle return 0, 1, ..., 63 in that order; after them
every slot is valid, and a further `hid_open_path` returns `-1` without any
native call and leaves the table as it is. -/
theorem win_open_64_then_full (reqs : List (String × Int × Option String))
    (hlen : reqs.length = 64) (hok : ∀ r ∈ reqs, r.2.1 ≠ Win.INVALID_HANDLE_VALUE) :
    (Win.open_many Win.Table.initial reqs).2 = (List.range 64).map (fun n : Nat => (n : Int)) ∧
    (∀ j, ((Win.open_many Win.Table.initial reqs).1.devices j).valid = true) ∧
    ∀ (path : String) (h : Int) (msg : Option String),
      Win.hid_open_path (Win.open_many Win.Table.initial reqs).1 path h msg =
        { table := (Win.open_many Win.Table.initial reqs).1, ret := -1, calls := [] } := by
  have hne : reqs ≠ [] := by
    intro h
    rw [h] at hlen
    cases hlen
  obtain ⟨h1, h2, h3⟩ := Win.win_open_many_fill reqs Win.Table.initial 0
    (by rw [hlen]) (fun j => by simp [Win.init_devices, Win.Table.initial]) hok
  have hinit := Win.win_init_devices_of_initialized _ (h3 hne)
  rw [hinit] at h2
  have hall : ∀ j, ((Win.open_many Win.Table.initial reqs).1.devices j).valid = true := by
    intro j
    rw [h2 j, hlen]
    exact decide_eq_true (by have := j.isLt; simp only [MAX_DEVICES] at this; omega)
  refine ⟨?_, hall, ?_⟩
  · rw [h1, hlen, List.range_eq_range']
  · intro path h msg
    have hf : find_available
        (fun k => ((Win.init_devices (Win.open_many Win.Table.initial reqs).1).devices k).valid)
        MAX_DEVICES 0 = none := by
      rw [find_available_full_none]
      intro j
      rw [hinit]
      exact hall j
    rw [Win.win_open_path_full _ path h msg hf, hinit]

/-- Linux backend, C2 for positive descriptors: from the initial table, 64
consecutive opens whose `open` returns a positive descriptor return 0, 1, ...,
63 in that order; after them every slot is valid, and a further
`hid_open_path` returns `-1` without any native call and leaves the table as it
is. -/
theorem linux_open_64_then_full (reqs : List (String × Int))
    (hlen : reqs.length = 64) (hok : ∀ r ∈ reqs, 0 < r.2) :
    (Linux.open_many Linux.Table.initial reqs).2
      = (List.range 64).map (fun n : Nat => (n : Int)) ∧
    (∀ j, ((Linux.open_many Linux.Table.initial reqs).1.devices j).valid = true) ∧
    ∀ (path : String) (fd : Int),
      Linux.hid_open_path (Linux.open_many Linux.Table.initial reqs).1 path fd =
        { table := (Linux.open_many Linux.Table.initial reqs).1, ret := -1, calls := [] } := by
  have hne : reqs ≠ [] := by
    intro h
    rw [h] at hlen
    cases hlen
  obtain ⟨h1, h2, h3⟩ := Linux.linux_open_many_fill reqs Linux.Table.initial 0
    (by rw [hlen]) (fun j => by simp [Linux.init_devices, Linux.Table.initial]) hok
  have hinit := Linux.linux_init_devices_of_initialized _ (h3 hne)
  rw [hinit] at h2
  have hall : ∀ j, ((Linux.open_many Linux.Table.initial reqs).1.devices j).valid = true := by
    intro j
    rw [h2 j, hlen]
    exact decide_eq_true (by have := j.isLt; simp only [MAX_DEVICES] at this; omega)
  refine ⟨?_, hall, ?_⟩
  · rw [h1, hlen, List.range_eq_range']
  · intro path fd
    have hf : find_available
        (fun k => ((Linux.init_devices (Linux.open_many Linux.Table.initial reqs).1).devices k).valid)
        MAX_DEVICES 0 = none := by
      rw [find_available_full_none]
      intro j
      rw [hinit]
      exact hall j
    rw [Linux.linux_open_path_full _ path fd hf, hinit]

/-- C2 fails in the Linux backend at the first call: from the initial table,
when `open(path, O_RDWR)` succeeds with descriptor 0 (the lowest descriptor is
free), `hid_open_path` makes the native open, stores the descriptor, and still
returns `-1` with slot 0 left free, because it tests `device_handle > 0`.  The
first of the 64 opens does not return handle 0. -/
theorem C2_linux_first_open_descriptor_zero :
    (Linux.hid_open_path Linux.Table.initial "/dev/hidraw0" 0).ret = -1 ∧
    (Linux.hid_open_path Linux.Table.initial "/dev/hidraw0" 0).calls
      = [Linux.NativeCall.sys_open "/dev/hidraw0"] ∧
    ((Linux.hid_open_path Linux.Table.initial "/dev/hidraw0" 0).table.devices 0).valid = false ∧
    ((Linux.hid_open_path Linux.Table.initial "/dev/hidraw0" 0).table.devices 0).device_handle
      = 0 := by
  decide

/-! ## C5: reuse of a closed handle -/

/-- Linux: what `hid_close` does on a valid handle. -/
theorem linux_hid_close_of_valid (s : Linux.Table) (i : Fin MAX_DEVICES)
    (hv : (s.devices i).valid = true) :
    Linux.hid_close s i.val =
      { table :=
          { s with
            devices := Function.update s.devices i ({ s.devices i with valid := false }) }
        ret := ()
        calls := [Linux.NativeCall.sys_close (s.devices i).device_handle] } := by
  simp only [Linux.hid_close, Linux.linux_get_handle_some s i hv]

/-- Windows: what `hid_close` does on a valid handle. -/
theorem win_hid_close_of_valid (s : Win.Table) (i : Fin MAX_DEVICES)
    (hv : (s.devices i).valid = true) :
    Win.hid_close s i.val =
      { table :=
          { s with
            devices := Function.update s.devices i
              ({ s.devices i with
                  device_handle := Win.INVALID_HANDLE_VALUE, last_error_str := none,
                  valid := false }) }
        ret := ()
        calls := [Win.NativeCall.CloseHandle (s.devices i).device_handle,
                  Win.NativeCall.LocalFree (s.devices i).last_error_str] } := by
  simp only [Win.hid_close, Win.win_get_handle_some s i hv]

/-- Windows backend, the whole of C5: on a well-formed table, after
`hid_close` of a valid handle `i` the next `hid_open_path` that obtains a
handle returns some `r ≤ i`, and `r = i` when every slot below `i` was valid at
the time of the close. -/
theorem win_close_then_open_reuses (s : Win.Table) (hwf : s.wf) (i : Fin MAX_DEVICES)
    (hv : (s.devices i).valid = true) (path : String) (h : Int) (msg : Option String)
    (hh : h ≠ Win.INVALID_HANDLE_VALUE) :
    ∃ r : Fin MAX_DEVICES,
      (Win.hid_open_path (Win.hid_close s i.val).table path h msg).ret = (r.val : Int) ∧
      r.val ≤ i.val ∧
      ((∀ j : Fin MAX_DEVICES, j.val < i.val → (s.devices j).valid = true) → r = i) := by
  have hs : s.devices_initialized = true := by
    cases hi : s.devices_initialized with
    | true => rfl
    | false =>
      have := hwf hi i
      rw [this] at hv
      cases hv
  rw [win_hid_close_of_valid s i hv]
  simp only
  have hinit := Win.win_init_devices_of_initialized
    ({ s with
        devices := Function.update s.devices i
          ({ s.devices i with
              device_handle := Win.INVALID_HANDLE_VALUE, last_error_str := none,
              valid := false }) } : Win.Table) hs
  cases hf : find_available
      (fun k => ((Win.init_devices
        ({ s with
            devices := Function.update s.devices i
              ({ s.devices i with
                  device_handle := Win.INVALID_HANDLE_VALUE, last_error_str := none,
                  valid := false }) } : Win.Table)).devices k).valid) MAX_DEVICES 0 with
  | none =>
    have := (find_available_full_none _).1 hf i
    rw [hinit] at this
    simp at this
  | some r =>
    have hsp := (find_available_full_some _ r).1 hf
    rw [hinit] at hsp
    rw [Win.win_open_path_ok _ path h msg r hf hh]
    refine ⟨r, rfl, ?_, ?_⟩
    · by_contra hlt
      have := hsp.2 i (by omega)
      simp at this
    · intro hbelow
      by_contra hne
      have hlt : r.val < i.val := by
        rcases Nat.lt_trichotomy r.val i.val with h1 | h1 | h1
        · exact h1
        · exact absurd (Fin.ext h1) hne
        · have := hsp.2 i h1
          simp at this
      have h1 := hsp.1
      simp only [Function.update_noteq hne] at h1
      rw [hbelow r hlt] at h1
      cases h1

/-- Linux backend, C5 for a positive descriptor: on a well-formed table, after
`hid_close` of a valid handle `i` the next `hid_open_path` whose `open` returns
a positive descriptor returns some `r ≤ i`, and `r = i` when every slot below
`i` was valid at the time of the close. -/
theorem linux_close_then_open_reuses (s : Linux.Table) (hwf : s.wf) (i : Fin MAX_DEVICES)
    (hv : (s.devices i).valid = true) (path : String) (fd : Int) (hfd : 0 < fd) :
    ∃ r : Fin MAX_DEVICES,
      (Linux.hid_open_path (Linux.hid_close s i.val).table path fd).ret = (r.val : Int) ∧
      r.val ≤ i.val ∧
      ((∀ j : Fin MAX_DEVICES, j.val < i.val → (s.devices j).valid = true) → r = i) := by
  have hs : s.devices_initialized = true := by
    cases hi : s.devices_initialized with
    | true => rfl
    | false =>
      have := hwf hi i
      rw [this] at hv
      cases hv
  rw [linux_hid_close_of_valid s i hv]
  simp only
  have hinit := Linux.linux_init_devices_of_initialized
    ({ s with
        devices := Function.update s.devices i ({ s.devices i with valid := false }) } :
      Linux.Table) hs
  cases hf : find_available
      (fun k => ((Linux.init_devices
        ({ s with
            devices := Function.update s.devices i ({ s.devices i with valid := false }) } :
          Linux.Table)).devices k).valid) MAX_DEVICES 0 with
  | none =>
    have := (find_available_full_none _).1 hf i
    rw [hinit] at this
    simp at this
  | some r =>
    have hsp := (find_available_full_some _ r).1 hf
    rw [hinit] at hsp
    rw [Linux.linux_open_path_ok _ path fd r hf hfd]
    refine ⟨r, rfl, ?_, ?_⟩
    · by_contra hlt
      have := hsp.2 i (by omega)
      simp at this
    · intro hbelow
      by_contra hne
      have hlt : r.val < i.val := by
        rcases Nat.lt_trichotomy r.val i.val with h1 | h1 | h1
        · exact h1
        · exact absurd (Fin.ext h1) hne
        · have := hsp.2 i h1
          simp at this
      have h1 := hsp.1
      simp only [Function.update_noteq hne] at h1
      rw [hbelow r hlt] at h1
      cases h1

/-- C5 fails in the Linux backend: handle 0 is valid (descriptor 3) and has no
slot below it; after `hid_close(0)` the next `hid_open_path` whose native open
succeeds with descriptor 0 makes the native open and returns `-1`, not the
closed handle 0, and slot 0 stays free. -/
theorem C5_linux_reopen_descriptor_zero :
    ((Linux.hid_open_path Linux.Table.initial "/dev/hidraw0" 3).table.devices 0).valid = true ∧
    (Linux.hid_open_path
        (Linux.hid_close (Linux.hid_open_path Linux.Table.initial "/dev/hidraw0" 3).table 0).table
        "/dev/hidraw0" 0).ret = -1 ∧
    (Linux.hid_open_path
        (Linux.hid_close (Linux.hid_open_path Linux.Table.initial "/dev/hidraw0" 3).table 0).table
        "/dev/hidraw0" 0).calls = [Linux.NativeCall.sys_open "/dev/hidraw0"] ∧
    ((Linux.hid_open_path
        (Linux.hid_close (Linux.hid_open_path Linux.Table.initial "/dev/hidraw0" 3).table 0).table
        "/dev/hidraw0" 0).table.devices 0).valid = false := by
  decide

/-! ## The blocking flag across close and open, in general -/

/-- Linux: when an initialised table has the valid handle `i` with every slot
below it valid, closing `i` and opening again (positive descriptor) returns `i`
with the blocking flag the closed handle had. -/
theorem linux_reopen_inherits_blocking (s : Linux.Table) (hs : s.devices_initialized = true)
    (i : Fin MAX_DEVICES) (hv : (s.devices i).valid = true)
    (hbelow : ∀ j : Fin MAX_DEVICES, j.val < i.val → (s.devices j).valid = true)
    (path : String) (fd : Int) (hfd : 0 < fd) :
    (Linux.hid_open_path (Linux.hid_close s i.val).table path fd).ret = (i.val : Int) ∧
    ((Linux.hid_open_path (Linux.hid_close s i.val).table path fd).table.devices i).blocking
      = (s.devices i).blocking := by
  rw [linux_hid_close_of_valid s i hv]
  simp only
  have hinit := Linux.linux_init_devices_of_initialized
    ({ s with
        devices := Function.update s.devices i ({ s.devices i with valid := false }) } :
      Linux.Table) hs
  have hf : find_available
      (fun k => ((Linux.init_devices
        ({ s with
            devices := Function.update s.devices i ({ s.devices i with valid := false }) } :
          Linux.Table)).devices k).valid) MAX_DEVICES 0 = some i := by
    rw [find_available_full_some, hinit]
    refine ⟨by simp, ?_⟩
    intro j hj
    have hne : j ≠ i := fun h => by rw [h] at hj; exact absurd hj (lt_irrefl _)
    simp only [Function.update_noteq hne]
    exact hbelow j hj
  rw [Linux.linux_open_path_ok _ path fd i hf hfd, hinit]
  simp

/-- Windows: the same inheritance of the blocking flag by a reused slot. -/
theorem win_reopen_inherits_blocking (s : Win.Table) (hs : s.devices_initialized = true)
    (i : Fin MAX_DEVICES) (hv : (s.devices i).valid = true)
    (hbelow : ∀ j : Fin MAX_DEVICES, j.val < i.val → (s.devices j).valid = true)
    (path : String) (h : Int) (msg : Option String) (hh : h ≠ Win.INVALID_HANDLE_VALUE) :
    (Win.hid_open_path (Win.hid_close s i.val).table path h msg).ret = (i.val : Int) ∧
    ((Win.hid_open_path (Win.hid_close s i.val).table path h msg).table.devices i).blocking
      = (s.devices i).blocking := by
  rw [win_hid_close_of_valid s i hv]
  simp only
  have hinit := Win.win_init_devices_of_initialized
    ({ s with
        devices := Function.update s.devices i
          ({ s.devices i with
              device_handle := Win.INVALID_HANDLE_VALUE, last_error_str := none,
              valid := false }) } : Win.Table) hs
  have hf : find_available
      (fun k => ((Win.init_devices
        ({ s with
            devices := Function.update s.devices i
              ({ s.devices i with
                  device_handle := Win.INVALID_HANDLE_VALUE, last_error_str := none,
                  valid := false }) } : Win.Table)).devices k).valid) MAX_DEVICES 0 = some i := by
    rw [find_available_full_some, hinit]
    refine ⟨by simp, ?_⟩
    intro j hj
    have hne : j ≠ i := fun h => by rw [h] at hj; exact absurd hj (lt_irrefl _)
    simp only [Function.update_noteq hne]
    exact hbelow j hj
  rw [Win.win_open_path_ok _ path h msg i hf hh, hinit]
  simp

/-! ## Well-formedness is an invariant

`Table.wf` holds of the initial table and is kept by every operation, so the
well-formed tables include every table a run of the library can produce. -/

namespace Linux

/-- The initial table is well-formed. -/
theorem linux_wf_initial : Table.initial.wf := fun _ _ => rfl

/-- An initialised table is well-formed. -/
theorem linux_wf_of_initialized (s : Table) (h : s.devices_initialized = true) : s.wf := by
  intro h2
  rw [h] at h2
  cases h2

/-- A handle that passes the check names a valid slot. -/
theorem linux_get_handle_valid (s : Table) (device : Int) (i : Fin MAX_DEVICES)
    (h : get_handle s device = some i) : (s.devices i).valid = true ∧ device = (i.val : Int) := by
  unfold get_handle at h
  split at h
  · cases h
  · rename_i hr
    simp only at h
    split at h
    · cases h
    · rename_i hv
      injection h with h
      subst h
      refine ⟨by simpa using hv, ?_⟩
      simp only
      omega

/-- A well-formed table with a valid slot has been initialised. -/
theorem linux_initialized_of_valid (s : Table) (hwf : s.wf) (i : Fin MAX_DEVICES)
    (hv : (s.devices i).valid = true) : s.devices_initialized = true := by
  cases hi : s.devices_initialized with
  | true => rfl
  | false =>
    have := hwf hi i
    rw [this] at hv
    cases hv

/-- Every operation of the Linux backend keeps the table well-formed. -/
theorem linux_wf_preserved (s : Table) (hwf : s.wf) (device : Int) (path : String)
    (data : List Nat) (length : Nat) (nonblock a b : Int) :
    (hid_open_path s path a).table.wf ∧
    (hid_write s device data a).table.wf ∧
    (hid_read s device length a).table.wf ∧
    (hid_set_nonblocking s device nonblock a b).table.wf ∧
    (hid_close s device).table.wf := by
  refine ⟨linux_wf_of_initialized _ (linux_open_path_initialized s path a), ?_, ?_, ?_, ?_⟩
  · unfold hid_write
    split <;> exact hwf
  · unfold hid_read
    split <;> exact hwf
  · cases hg : get_handle s device with
    | none =>
      simp only [hid_set_nonblocking, hg]
      exact hwf
    | some i =>
      have hs := linux_initialized_of_valid s hwf i (linux_get_handle_valid s device i hg).1
      apply linux_wf_of_initialized
      simp only [hid_set_nonblocking, hg]
      split
      · split <;> exact hs
      · exact hs
  · cases hg : get_handle s device with
    | none =>
      simp only [hid_close, hg]
      exact hwf
    | some i =>
      have hs := linux_initialized_of_valid s hwf i (linux_get_handle_valid s device i hg).1
      apply linux_wf_of_initialized
      simp only [hid_close, hg]
      exact hs

end Linux

namespace Win

/-- The initial table is well-formed. -/
theorem win_wf_initial : Table.initial.wf := fun _ _ => rfl

/-- An initialised table is well-formed. -/
theorem win_wf_of_initialized (s : Table) (h : s.devices_initialized = true) : s.wf := by
  intro h2
  rw [h] at h2
  cases h2

/-- A handle that passes the check names a valid slot. -/
theorem win_get_handle_valid (s : Table) (device : Int) (i : Fin MAX_DEVICES)
    (h : get_handle s device = some i) : (s.devices i).valid = true ∧ device = (i.val : Int) := by
  unfold get_handle at h
  split at h
  · cases h
  · rename_i hr
    simp only at h
    split at h
    · cases h
    · rename_i hv
      injection h with h
      subst h
      refine ⟨by simpa using hv, ?_⟩
      simp only
      omega

/-- A well-formed table with a valid slot has been initialised. -/
theorem win_initialized_of_valid (s : Table) (hwf : s.wf) (i : Fin MAX_DEVICES)
    (hv : (s.devices i).valid = true) : s.devices_initialized = true := by
  cases hi : s.devices_initialized with
  | true => rfl
  | false =>
    have := hwf hi i
    rw [this] at hv
    cases hv

/-- No operation of the Windows backend other than `hid_open_path` writes the
initialisation flag. -/
theorem win_initialized_unchanged (s : Table) (device : Int) (data string : List Nat)
    (length : Nat) (nonblock : Int) (wenv : WriteEnv) (renv : ReadEnv) (senv : StringEnv)
    (call : Int → NativeCall) :
    (hid_write s device data wenv).table.devices_initialized = s.devices_initialized ∧
    (hid_read s device length renv).table.devices_initialized = s.devices_initialized ∧
    (hid_set_nonblocking s device nonblock).table.devices_initialized
      = s.devices_initialized ∧
    (string_query s device call string senv).table.devices_initialized
      = s.devices_initialized ∧
    (hid_close s device).table.devices_initialized = s.devices_initialized := by
  refine ⟨?_, ?_, ?_, ?_, ?_⟩
  · unfold hid_write
    split
    · rfl
    · simp only
      split
      · rfl
      · split <;> rfl
  · unfold hid_read
    split
    · rfl
    · simp only
      split
      · rfl
      · split
        · rfl
        · split <;> rfl
  · unfold hid_set_nonblocking
    split <;> rfl
  · unfold string_query
    split
    · rfl
    · simp only
      split <;> rfl
  · unfold hid_close
    split <;> rfl

/-- Every operation of the Windows backend keeps the table well-formed. -/
theorem win_wf_preserved (s : Table) (hwf : s.wf) (device : Int) (path : String)
    (data string : List Nat) (length : Nat) (nonblock h : Int) (msg : Option String)
    (wenv : WriteEnv) (renv : ReadEnv) (senv : StringEnv) (call : Int → NativeCall) :
    (hid_open_path s path h msg).table.wf ∧
    (hid_write s device data wenv).table.wf ∧
    (hid_read s device length renv).table.wf ∧
    (hid_set_nonblocking s device nonblock).table.wf ∧
    (string_query s device call string senv).table.wf ∧
    (hid_close s device).table.wf := by
  obtain ⟨f1, f2, f3, f4, f5⟩ :=
    win_initialized_unchanged s device data string length nonblock wenv renv senv call
  cases hg : get_handle s device with
  | none =>
    refine ⟨win_wf_of_initialized _ (win_open_path_initialized s path h msg), ?_, ?_, ?_, ?_, ?_⟩
    · simp only [hid_write, hg]; exact hwf
    · simp only [hid_read, hg]; exact hwf
    · simp only [hid_set_nonblocking, hg]; exact hwf
    · simp only [string_query, hg]; exact hwf
    · simp only [hid_close, hg]; exact hwf
  | some i =>
    have hs := win_initialized_of_valid s hwf i (win_get_handle_valid s device i hg).1
    exact ⟨win_wf_of_initialized _ (win_open_path_initialized s path h msg),
      win_wf_of_initialized _ (f1.trans hs), win_wf_of_initialized _ (f2.trans hs),
      win_wf_of_initialized _ (f3.trans hs), win_wf_of_initialized _ (f4.trans hs),
      win_wf_of_initialized _ (f5.trans hs)⟩

end Win

/-! ## C11: the strings of a Linux enumeration record -/

/-- C11 fails in the Linux backend: a hidraw device whose USB parent has the
attributes `serial`, `manufacturer` and `product` present but of length zero is
enumerated with all three fields non-null and empty (`some []`), not absent.
(`copy_udev_string` allocates `wlen + 1` characters for every non-null
attribute; the Windows `hid_enumerate` tests `len == 0` and stores `NULL`.) -/
theorem C11_linux_empty_attribute_gives_empty_string :
    (Linux.hid_enumerate (fun _ => 1240) (fun str => some (str.toList.map Char.toNat))
        (some [⟨some "/dev/hidraw0",
          some ⟨[("idVendor", "04d8"), ("idProduct", "04d8"), ("serial", ""),
                 ("manufacturer", ""), ("product", "")]⟩⟩]) 0 0).map
      (fun devs =>
        devs.map (fun d => (d.serial_number, d.manufacturer_string, d.product_string)))
      = Result.ok [(some [], some [], some [])] := by
  decide

/-! ## C15: the string queries of the Linux backend -/

/-- Linux: on a valid handle each of the four string queries returns 0, makes
no native call and leaves the caller's buffer and the table as they were. -/
theorem linux_string_queries_of_valid (s : Linux.Table) (i : Fin MAX_DEVICES)
    (hv : (s.devices i).valid = true) (string : List Nat) (maxlen : Nat) (string_index : Int) :
    Linux.hid_get_manufacturer_string s i.val string maxlen
      = { table := s, ret := (0, string), calls := [] } ∧
    Linux.hid_get_product_string s i.val string maxlen
      = { table := s, ret := (0, string), calls := [] } ∧
    Linux.hid_get_serial_number_string s i.val string maxlen
      = { table := s, ret := (0, string), calls := [] } ∧
    Linux.hid_get_indexed_string s i.val string_index string maxlen
      = { table := s, ret := (0, string), calls := [] } := by
  have hg := Linux.linux_get_handle_some s i hv
  refine ⟨?_, ?_, ?_, ?_⟩
  · simp only [Linux.hid_get_manufacturer_string, hg]
  · simp only [Linux.hid_get_product_string, hg]
  · simp only [Linux.hid_get_serial_number_string, hg]
  · simp only [Linux.hid_get_indexed_string, hg]

/-- C15 fails in the Linux backend: on the valid handle 0 each of the four
string queries returns success (0) without any native call, and the caller's
buffer (here the three characters 88, 89, 90) is exactly what it was before
the call: nothing was queried from the device, and `-1` is never returned for
a valid handle.  (The bodies are `// TODO:` followed by `return 0;`.) -/
theorem C15_linux_string_queries_are_stubs :
    Linux.get_handle (Linux.hid_open_path Linux.Table.initial "/dev/hidraw0" 3).table 0
      = some 0 ∧
    (Linux.hid_get_manufacturer_string
        (Linux.hid_open_path Linux.Table.initial "/dev/hidraw0" 3).table 0 [88, 89, 90] 3).ret
      = (0, [88, 89, 90]) ∧
    (Linux.hid_get_manufacturer_string
        (Linux.hid_open_path Linux.Table.initial "/dev/hidraw0" 3).table 0 [88, 89, 90] 3).calls
      = [] ∧
    (Linux.hid_get_product_string
        (Linux.hid_open_path Linux.Table.initial "/dev/hidraw0" 3).table 0 [88, 89, 90] 3).ret
      = (0, [88, 89, 90]) ∧
    (Linux.hid_get_serial_number_string
        (Linux.hid_open_path Linux.Table.initial "/dev/hidraw0" 3).table 0 [88, 89, 90] 3).ret
      = (0, [88, 89, 90]) ∧
    (Linux.hid_get_indexed_string
        (Linux.hid_open_path Linux.Table.initial "/dev/hidraw0" 3).table 0 1 [88, 89, 90] 3).ret
      = (0, [88, 89, 90]) := by
  decide

/-! ## C18: which descriptors the Linux `hid_open_path` accepts -/

/-- Linux: on a well-formed table with a free slot, `hid_open_path` returns a
handle exactly when the descriptor is positive, and it never calls `close`. -/
theorem linux_open_path_ret_iff (s : Linux.Table) (hwf : s.wf) (j : Fin MAX_DEVICES)
    (hj : (s.devices j).valid = false) (path : String) (fd : Int) :
    ((Linux.hid_open_path s path fd).ret ≠ -1 ↔ 0 < fd) ∧
    (Linux.hid_open_path s path fd).calls = [Linux.NativeCall.sys_open path] := by
  have hv := Linux.linux_init_devices_valid s hwf
  have hne : find_available (fun k => ((Linux.init_devices s).devices k).valid)
      MAX_DEVICES 0 ≠ none := by
    intro hn
    have hall := (find_available_full_none _).1 hn j
    simp only [hv] at hall
    rw [hj] at hall
    cases hall
  obtain ⟨i, hi⟩ := Option.ne_none_iff_exists'.1 hne
  by_cases hfd : 0 < fd
  · rw [Linux.linux_open_path_ok s path fd i hi hfd]
    refine ⟨⟨fun _ => hfd, fun _ => ?_⟩, rfl⟩
    simp only
    omega
  · rw [Linux.linux_open_path_rejected s path fd i hi (not_lt.1 hfd)]
    exact ⟨⟨fun h => absurd rfl h, fun h => absurd h hfd⟩, rfl⟩

/-- C18 fails in the Linux backend: the table holds one open device (slot 0)
and has free slots; the native open succeeds and returns descriptor 0, yet
`hid_open_path` returns `-1`, and the only native call it makes is the `open`:
descriptor 0, obtained by the call, is not closed and stays open, with its
number left behind in the free slot 1. -/
theorem C18_linux_descriptor_zero_rejected_and_leaked :
    ((Linux.hid_open_path Linux.Table.initial "/dev/hidraw0" 3).table.devices 1).valid = false ∧
    (Linux.hid_open_path (Linux.hid_open_path Linux.Table.initial "/dev/hidraw0" 3).table
        "/dev/hidraw1" 0).ret = -1 ∧
    (Linux.hid_open_path (Linux.hid_open_path Linux.Table.initial "/dev/hidraw0" 3).table
        "/dev/hidraw1" 0).calls = [Linux.NativeCall.sys_open "/dev/hidraw1"] ∧
    Linux.NativeCall.sys_close 0 ∉
      (Linux.hid_open_path (Linux.hid_open_path Linux.Table.initial "/dev/hidraw0" 3).table
        "/dev/hidraw1" 0).calls ∧
    ((Linux.hid_open_path (Linux.hid_open_path Linux.Table.initial "/dev/hidraw0" 3).table
        "/dev/hidraw1" 0).table.devices 1).valid = false ∧
    ((Linux.hid_open_path (Linux.hid_open_path Linux.Table.initial "/dev/hidraw0" 3).table
        "/dev/hidraw1" 0).table.devices 1).device_handle = 0 := by
  decide

/-! ## C14: the diagnostic of a freshly opened Windows handle -/

/-- C14 fails in the Windows backend: from the initial table a `hid_open_path`
whose `CreateFile` fails registers its message in slot 0 and gives the slot
back; the next `hid_open_path` succeeds, returns handle 0, and `hid_error(0)`
returns the message of the earlier failed open although no operation on the
new handle has failed.  (`hid_close` resets `last_error_str`, the failure path
of `hid_open_path` and the slot allocation do not.) -/
theorem C14_win_fresh_handle_has_stale_diagnostic :
    (Win.hid_open_path Win.Table.initial "hid#gone" Win.INVALID_HANDLE_VALUE
        (some "The system cannot find the file specified.")).ret = -1 ∧
    (Win.open_after_failed_open (some "The system cannot find the file specified.")).ret = 0 ∧
    (Win.open_after_failed_open
        (some "The system cannot find the file specified.")).calls
      = [Win.NativeCall.CreateFile "hid#0"] ∧
    (Win.hid_error
        (Win.open_after_failed_open (some "The system cannot find the file specified.")).table
        0).ret
      = some "The system cannot find the file specified." := by
  decide

/-! ## C12: what a native failure records (Windows) -/

namespace Win

/-- The handle check reads the validity flags only. -/
theorem win_get_handle_congr (s t : Table)
    (h : ∀ j, (t.devices j).valid = (s.devices j).valid) (device : Int) :
    get_handle t device = get_handle s device := by
  unfold get_handle
  split
  · rfl
  · simp only [h]

/-- The table `register_error` leaves behind when it runs on the valid slot `i`:
`hid_error` of handle `i` is the new message, `hid_error` of every other handle
is what it was. -/
theorem win_after_register (s : Table) (i : Fin MAX_DEVICES) (hv : (s.devices i).valid = true)
    (msg : Option String) :
    (hid_error
        { s with
          devices := Function.update s.devices i ({ s.devices i with last_error_str := msg }) }
        i.val).ret = msg ∧
    ∀ d : Int, d ≠ (i.val : Int) →
      (hid_error
          { s with
            devices := Function.update s.devices i
              ({ s.devices i with last_error_str := msg }) } d).ret
        = (hid_error s d).ret := by
  have hvalid : ∀ j,
      (({ s with
          devices := Function.update s.devices i
            ({ s.devices i with last_error_str := msg }) } : Table).devices j).valid
        = (s.devices j).valid := by
    intro j
    by_cases hji : j = i
    · subst hji; simp
    · simp only [Function.update_noteq hji]
  constructor
  · have hg := win_get_handle_some
      ({ s with
          devices := Function.update s.devices i
            ({ s.devices i with last_error_str := msg }) } : Table) i
      (by rw [hvalid i]; exact hv)
    simp only [hid_error, hg, Function.update_same]
  · intro d hd
    have hc := win_get_handle_congr s _ hvalid d
    cases hg : get_handle s d with
    | none =>
      rw [hg] at hc
      simp only [hid_error, hc, hg]
    | some j =>
      rw [hg] at hc
      have hji : j ≠ i := by
        intro h
        apply hd
        rw [(win_get_handle_valid s d j hg).2, h]
      simp only [hid_error, hc, hg, Function.update_noteq hji]

/-- `hid_write` on a valid handle when the write fails natively. -/
theorem win_hid_write_failed (s : Table) (i : Fin MAX_DEVICES)
    (hv : (s.devices i).valid = true) (data : List Nat) (env : WriteEnv)
    (hf : (env.write_res = false ∧ env.io_pending = false) ∨ env.overlapped_res = false) :
    (hid_write s i.val data env).ret = -1 ∧
    (hid_write s i.val data env).table =
      { s with
        devices := Function.update s.devices i
          ({ s.devices i with last_error_str := env.msg }) } ∧
    NativeCall.LocalFree (s.devices i).last_error_str ∈ (hid_write s i.val data env).calls := by
  have hg := win_get_handle_some s i hv
  simp only [hid_write, hg]
  by_cases h1 : env.write_res = false ∧ env.io_pending = false
  · rw [if_pos h1]
    simp [register_error]
  · rw [if_neg h1, if_pos (hf.resolve_left h1)]
    simp [register_error]

/-- `hid_read` on a valid handle when the read fails natively. -/
theorem win_hid_read_failed (s : Table) (i : Fin MAX_DEVICES)
    (hv : (s.devices i).valid = true) (length : Nat) (env : ReadEnv)
    (hf : (env.read_res = false ∧ env.io_pending = false) ∨
      (¬ ((s.devices i).blocking = false ∧ env.signaled = false) ∧
        env.overlapped_res = false)) :
    (hid_read s i.val length env).ret = -1 ∧
    (hid_read s i.val length env).table =
      { s with
        devices := Function.update s.devices i
          ({ s.devices i with last_error_str := env.msg }) } ∧
    NativeCall.LocalFree (s.devices i).last_error_str ∈ (hid_read s i.val length env).calls := by
  have hg := win_get_handle_some s i hv
  simp only [hid_read, hg]
  by_cases h1 : env.read_res = false ∧ env.io_pending = false
  · rw [if_pos h1]
    simp [register_error]
  · have h2 := hf.resolve_left h1
    rw [if_neg h1, if_neg h2.1, if_pos h2.2]
    simp [register_error]

/-- A string query on a valid handle when the query fails natively. -/
theorem win_string_query_failed (s : Table) (i : Fin MAX_DEVICES)
    (hv : (s.devices i).valid = true) (call : Int → NativeCall) (string : List Nat)
    (env : StringEnv) (hf : env.res = false) :
    (string_query s i.val call string env).ret = (-1, string) ∧
    (string_query s i.val call string env).table =
      { s with
        devices := Function.update s.devices i
          ({ s.devices i with last_error_str := env.msg }) } ∧
    NativeCall.LocalFree (s.devices i).last_error_str
      ∈ (string_query s i.val call string env).calls := by
  have hg := win_get_handle_some s i hv
  simp only [string_query, hg]
  rw [if_pos hf]
  simp [register_error]

end Win

/-- C12: in the Windows backend, for every valid handle `i`: when `hid_write`,
`hid_read` or one of the four string queries fails natively (the OS call
returns `FALSE`, for the overlapped calls other than with `ERROR_IO_PENDING`,
or `GetOverlappedResult` returns `FALSE`), the call returns `-1`, the message
stored before is released (`LocalFree` of the old pointer is among the calls
made), `hid_error(i)` afterwards is exactly the message obtained for this
failure, and `hid_error` of every other handle is what it was before the
call. -/
theorem C12_win_failure_replaces_diagnostic
    (s : Win.Table) (i : Fin MAX_DEVICES) (hv : (s.devices i).valid = true)
    (data string : List Nat) (length maxlen : Nat) (string_index : Int)
    (wenv : Win.WriteEnv) (renv : Win.ReadEnv) (senv : Win.StringEnv)
    (hwf : (wenv.write_res = false ∧ wenv.io_pending = false) ∨ wenv.overlapped_res = false)
    (hrf : (renv.read_res = false ∧ renv.io_pending = false) ∨
      (¬ ((s.devices i).blocking = false ∧ renv.signaled = false) ∧
        renv.overlapped_res = false))
    (hsf : senv.res = false) :
    ((Win.hid_write s i.val data wenv).ret = -1 ∧
      (Win.hid_error (Win.hid_write s i.val data wenv).table i.val).ret = wenv.msg ∧
      Win.NativeCall.LocalFree (s.devices i).last_error_str ∈ (Win.hid_write s i.val data wenv).calls ∧
      ∀ d : Int, d ≠ (i.val : Int) →
        (Win.hid_error (Win.hid_write s i.val data wenv).table d).ret = (Win.hid_error s d).ret) ∧
    ((Win.hid_read s i.val length renv).ret = -1 ∧
      (Win.hid_error (Win.hid_read s i.val length renv).table i.val).ret = renv.msg ∧
      Win.NativeCall.LocalFree (s.devices i).last_error_str ∈ (Win.hid_read s i.val length renv).calls ∧
      ∀ d : Int, d ≠ (i.val : Int) →
        (Win.hid_error (Win.hid_read s i.val length renv).table d).ret = (Win.hid_error s d).ret) ∧
    ((Win.hid_get_manufacturer_string s i.val string maxlen senv).ret.1 = -1 ∧
      (Win.hid_error (Win.hid_get_manufacturer_string s i.val string maxlen senv).table i.val).ret = senv.msg ∧
      Win.NativeCall.LocalFree (s.devices i).last_error_str ∈ (Win.hid_get_manufacturer_string s i.val string maxlen senv).calls ∧
      ∀ d : Int, d ≠ (i.val : Int) →
        (Win.hid_error (Win.hid_get_manufacturer_string s i.val string maxlen senv).table d).ret = (Win.hid_error s d).ret) ∧
    ((Win.hid_get_product_string s i.val string maxlen senv).ret.1 = -1 ∧
      (Win.hid_error (Win.hid_get_product_string s i.val string maxlen senv).table i.val).ret = senv.msg ∧
      Win.NativeCall.LocalFree (s.devices i).last_error_str ∈ (Win.hid_get_product_string s i.val string maxlen senv).calls ∧
      ∀ d : Int, d ≠ (i.val : Int) →
        (Win.hid_error (Win.hid_get_product_string s i.val string maxlen senv).table d).ret = (Win.hid_error s d).ret) ∧
    ((Win.hid_get_serial_number_string s i.val string maxlen senv).ret.1 = -1 ∧
      (Win.hid_error (Win.hid_get_serial_number_string s i.val string maxlen senv).table i.val).ret = senv.msg ∧
      Win.NativeCall.LocalFree (s.devices i).last_error_str ∈ (Win.hid_get_serial_number_string s i.val string maxlen senv).calls ∧
      ∀ d : Int, d ≠ (i.val : Int) →
        (Win.hid_error (Win.hid_get_serial_number_string s i.val string maxlen senv).table d).ret = (Win.hid_error s d).ret) ∧
    ((Win.hid_get_indexed_string s i.val string_index string maxlen senv).ret.1 = -1 ∧
      (Win.hid_error (Win.hid_get_indexed_string s i.val string_index string maxlen senv).table i.val).ret = senv.msg ∧
      Win.NativeCall.LocalFree (s.devices i).last_error_str ∈ (Win.hid_get_indexed_string s i.val string_index string maxlen senv).calls ∧
      ∀ d : Int, d ≠ (i.val : Int) →
        (Win.hid_error (Win.hid_get_indexed_string s i.val string_index string maxlen senv).table d).ret = (Win.hid_error s d).ret) := by
  have key : ∀ (α : Type) (o : Win.Outcome α) (msg : Option String),
      o.table =
        { s with
          devices := Function.update s.devices i
            ({ s.devices i with last_error_str := msg }) } →
      (Win.hid_error o.table i.val).ret = msg ∧
      ∀ d : Int, d ≠ (i.val : Int) →
        (Win.hid_error o.table d).ret = (Win.hid_error s d).ret := by
    intro α o msg ht
    rw [ht]
    exact Win.win_after_register s i hv msg
  obtain ⟨w1, w2, w3⟩ := Win.win_hid_write_failed s i hv data wenv hwf
  obtain ⟨r1, r2, r3⟩ := Win.win_hid_read_failed s i hv length renv hrf
  have q : ∀ call : Int → Win.NativeCall,
      (Win.string_query s i.val call string senv).ret.1 = -1 ∧
      (Win.hid_error (Win.string_query s i.val call string senv).table i.val).ret = senv.msg ∧
      Win.NativeCall.LocalFree (s.devices i).last_error_str
        ∈ (Win.string_query s i.val call string senv).calls ∧
      ∀ d : Int, d ≠ (i.val : Int) →
        (Win.hid_error (Win.string_query s i.val call string senv).table d).ret
          = (Win.hid_error s d).ret := by
    intro call
    obtain ⟨q1, q2, q3⟩ := Win.win_string_query_failed s i hv call string senv hsf
    exact ⟨by rw [q1], (key _ _ _ q2).1, q3, (key _ _ _ q2).2⟩
  exact ⟨⟨w1, (key _ _ _ w2).1, w3, (key _ _ _ w2).2⟩,
    ⟨r1, (key _ _ _ r2).1, r3, (key _ _ _ r2).2⟩,
    q _, q _, q _, q _⟩

/-- C12 at concrete inputs: handle 0 is open and already holds the message of
a failed write; a read on it then fails natively (`ReadFile` returns `FALSE`,
not pending) with another message, which is what `hid_error(0)` returns
afterwards. -/
theorem C12_win_failure_replaces_diagnostic_witness :
    (Win.hid_read (Win.failed_write (some "first failure")).table 0 65
        ⟨9, false, false, false, false, 0, some "second failure"⟩).ret = -1 ∧
    (Win.hid_error
        (Win.hid_read (Win.failed_write (some "first failure")).table 0 65
          ⟨9, false, false, false, false, 0, some "second failure"⟩).table 0).ret
      = some "second failure" ∧
    Win.NativeCall.LocalFree (some "first failure") ∈
      (Win.hid_read (Win.failed_write (some "first failure")).table 0 65
        ⟨9, false, false, false, false, 0, some "second failure"⟩).calls := by
  have h :=
    C12_win_failure_replaces_diagnostic (Win.failed_write (some "first failure")).table 0
      (by decide) [0, 129] [] 65 0 1 ⟨false, false, false, 0, none⟩
      ⟨9, false, false, false, false, 0, some "second failure"⟩ ⟨false, [], none⟩
      (Or.inl ⟨rfl, rfl⟩) (Or.inl ⟨rfl, rfl⟩) rfl
  exact ⟨h.2.1.1, h.2.1.2.1, h.2.1.2.2.1⟩

/-! ## C13: the diagnostic after a later success (Windows) -/

/-- C13 as stated fails: handle 0 is open, a `hid_write` on it fails natively
and records its message; a later `hid_write` on the same handle succeeds (it
returns the 2 bytes written), and `hid_error(0)` still returns the message of
the earlier failure.  The same holds after a successful
`hid_set_nonblocking`. -/
theorem C13_counterexample_success_keeps_diagnostic :
    (Win.failed_write (some "The device is not connected.")).ret = -1 ∧
    (Win.hid_error (Win.failed_write (some "The device is not connected.")).table 0).ret
      = some "The device is not connected." ∧
    (Win.write_after_failed_write (some "The device is not connected.")).ret = 2 ∧
    (Win.hid_error
        (Win.write_after_failed_write (some "The device is not connected.")).table 0).ret
      = some "The device is not connected." ∧
    (Win.hid_set_nonblocking
        (Win.failed_write (some "The device is not connected.")).table 0 1).ret = 0 ∧
    (Win.hid_error
        (Win.hid_set_nonblocking
          (Win.failed_write (some "The device is not connected.")).table 0 1).table 0).ret
      = some "The device is not connected." := by
  decide

/-- C13 (amended): in the Windows backend, for every valid handle `i`, an
operation on `i` that succeeds leaves the recorded diagnostic in place:
after a `hid_write` or `hid_read` that does not fail natively, after
`hid_set_nonblocking`, and after a string query that succeeds, `hid_error(i)`
returns what it returned before the call (the write, the read and the string
queries leave the whole table as it was). -/
theorem C13_win_success_keeps_diagnostic
    (s : Win.Table) (i : Fin MAX_DEVICES) (hv : (s.devices i).valid = true)
    (data string : List Nat) (length maxlen : Nat) (nonblock string_index : Int)
    (wenv : Win.WriteEnv) (renv : Win.ReadEnv) (senv : Win.StringEnv)
    (hws : (wenv.write_res = true ∨ wenv.io_pending = true) ∧ wenv.overlapped_res = true)
    (hrs : (renv.read_res = true ∨ renv.io_pending = true) ∧
      (((s.devices i).blocking = false ∧ renv.signaled = false) ∨ renv.overlapped_res = true))
    (hss : senv.res = true) :
    (Win.hid_write s i.val data wenv).table = s ∧
    (Win.hid_read s i.val length renv).table = s ∧
    (Win.hid_get_manufacturer_string s i.val string maxlen senv).table = s ∧
    (Win.hid_get_product_string s i.val string maxlen senv).table = s ∧
    (Win.hid_get_serial_number_string s i.val string maxlen senv).table = s ∧
    (Win.hid_get_indexed_string s i.val string_index string maxlen senv).table = s ∧
    (Win.hid_set_nonblocking s i.val nonblock).ret = 0 ∧
    (Win.hid_error (Win.hid_set_nonblocking s i.val nonblock).table i.val).ret
      = (Win.hid_error s i.val).ret ∧
    (Win.hid_error s i.val).ret = (s.devices i).last_error_str := by
  have hg := Win.win_get_handle_some s i hv
  have hq : ∀ call : Int → Win.NativeCall,
      (Win.string_query s i.val call string senv).table = s := by
    intro call
    simp only [Win.string_query, hg]
    rw [if_neg (by simp [hss])]
  have hnw : ¬ (wenv.write_res = false ∧ wenv.io_pending = false) := by
    rintro ⟨h1, h2⟩
    rcases hws.1 with h | h
    · rw [h1] at h; cases h
    · rw [h2] at h; cases h
  have hnr : ¬ (renv.read_res = false ∧ renv.io_pending = false) := by
    rintro ⟨h1, h2⟩
    rcases hrs.1 with h | h
    · rw [h1] at h; cases h
    · rw [h2] at h; cases h
  refine ⟨?_, ?_, hq _, hq _, hq _, hq _, ?_, ?_, ?_⟩
  · simp only [Win.hid_write, hg]
    rw [if_neg hnw, if_neg (by simp [hws.2])]
  · simp only [Win.hid_read, hg]
    rw [if_neg hnr]
    by_cases hnb : (s.devices i).blocking = false ∧ renv.signaled = false
    · rw [if_pos hnb]
    · rw [if_neg hnb, if_neg (by simp [hrs.2.resolve_left hnb])]
  · simp only [Win.hid_set_nonblocking, hg]
  · have hvalid : ∀ j, ((Win.hid_set_nonblocking s i.val nonblock).table.devices j).valid
        = (s.devices j).valid := by
      intro j
      simp only [Win.hid_set_nonblocking, hg]
      by_cases hji : j = i
      · subst hji; simp
      · simp only [Function.update_noteq hji]
    have hg2 := Win.win_get_handle_some (Win.hid_set_nonblocking s i.val nonblock).table i
      (by rw [hvalid i]; exact hv)
    have e1 : (Win.hid_error (Win.hid_set_nonblocking s i.val nonblock).table i.val).ret
        = ((Win.hid_set_nonblocking s i.val nonblock).table.devices i).last_error_str := by
      simp only [Win.hid_error, hg2]
    rw [e1]
    simp only [Win.hid_set_nonblocking, Win.hid_error, hg, Function.update_same]
  · simp only [Win.hid_error, hg]

/-- C13 (amended) at concrete inputs: after the failed write on handle 0, a
write that completes leaves the table, and with it the recorded message, as
it was. -/
theorem C13_win_success_keeps_diagnostic_witness :
    (Win.hid_write (Win.failed_write (some "The device is not connected.")).table 0 [0, 129]
        ⟨false, true, true, 2, none⟩).table
      = (Win.failed_write (some "The device is not connected.")).table ∧
    (Win.hid_error (Win.failed_write (some "The device is not connected.")).table 0).ret
      = some "The device is not connected." := by
  have h :=
    C13_win_success_keeps_diagnostic
      (Win.failed_write (some "The device is not connected.")).table 0 (by decide)
      [0, 129] [] 65 0 1 1 ⟨false, true, true, 2, none⟩
      ⟨9, true, false, true, true, 65, none⟩ ⟨true, [], none⟩
      ⟨Or.inr rfl, rfl⟩ ⟨Or.inl rfl, Or.inr rfl⟩ rfl
  exact ⟨h.1, h.2.2.2.2.2.2.2.2⟩

/-! ## C16, C17: `hid_open` -/

/-- With a `NULL` serial number the scan of `hid_open` stops at the first
record whose two ids equal the arguments. -/
theorem hid_open_scan_no_serial (vendor_id product_id : Nat) (devs : List hid_device) :
    hid_open_scan vendor_id product_id none devs =
      match devs.find? (fun d => decide (d.vendor_id = vendor_id ∧ d.product_id = product_id)) with
      | some d => open_scan.path_to_open d.path
      | none => open_scan.exhausted := by
  induction devs with
  | nil => rfl
  | cons d rest ih =>
    by_cases h : d.vendor_id = vendor_id ∧ d.product_id = product_id
    · simp [hid_open_scan, List.find?, h]
    · simp only [hid_open_scan, List.find?, if_neg h, decide_eq_false h, ih]

/-- With a serial number the scan of `hid_open` runs into `wcscmp` on a `NULL`
pointer as soon as it reaches a record with the requested ids and no serial
number, unless an earlier record already matched ids and serial number. -/
theorem hid_open_scan_null_serial (vendor_id product_id : Nat) (sn : List Nat)
    (front : List hid_device) (d : hid_device) (rest : List hid_device)
    (hfront : ∀ e ∈ front,
      ¬ (e.vendor_id = vendor_id ∧ e.product_id = product_id) ∨
        (∃ ds, e.serial_number = some ds ∧ sn ≠ ds))
    (hd : d.vendor_id = vendor_id ∧ d.product_id = product_id) (hs : d.serial_number = none) :
    hid_open_scan vendor_id product_id (some sn) (front ++ d :: rest) = open_scan.wcscmp_null := by
  induction front with
  | nil => simp [hid_open_scan, hd, hs]
  | cons e front ih =>
    have ih2 := ih (fun x hx => hfront x (List.mem_cons_of_mem _ hx))
    have hstep : hid_open_scan vendor_id product_id (some sn) ((e :: front) ++ d :: rest)
        = hid_open_scan vendor_id product_id (some sn) (front ++ d :: rest) := by
      show hid_open_scan vendor_id product_id (some sn) (e :: (front ++ d :: rest)) = _
      rcases hfront e (List.mem_cons_self _ _) with h | ⟨ds, h1, h2⟩
      · simp only [hid_open_scan, if_neg h]
      · by_cases hid : e.vendor_id = vendor_id ∧ e.product_id = product_id
        · simp only [hid_open_scan, if_pos hid, h1, if_neg h2]
        · simp only [hid_open_scan, if_neg hid]
    rw [hstep]
    exact ih2

/-- In a list all of whose members satisfy `p`, the first member that satisfies
`p` is the head. -/
theorem find_eq_head_of_all (p : hid_device → Bool) (devs : List hid_device)
    (h : ∀ d ∈ devs, p d = true) : devs.find? p = devs.head? := by
  cases devs with
  | nil => rfl
  | cons d rest => simp [List.find?, h d (List.mem_cons_self _ _)]

/-- Linux: when the enumeration completes for a pair other than `(0, 0)`, every
record carries exactly the ids of the pair. -/
theorem linux_enumerate_mem_ids (strtol16 : String → Int)
    (mbstowcs : String → Option (List Nat))
    (udev : Option (List Linux.hidraw_entry)) (vendor_id product_id : Nat)
    (devs : List hid_device)
    (hok : Linux.hid_enumerate strtol16 mbstowcs udev vendor_id product_id = Result.ok devs)
    (hnz : ¬ (vendor_id = 0 ∧ product_id = 0)) :
    ∀ d ∈ devs, d.vendor_id = vendor_id ∧ d.product_id = product_id := by
  intro d hd
  cases udev with
  | none =>
    simp only [Linux.hid_enumerate] at hok
    injection hok with hok
    rw [← hok] at hd
    cases hd
  | some devices =>
    simp only [Linux.hid_enumerate] at hok
    rw [linux_enumerate_loop_ok strtol16 mbstowcs vendor_id product_id devices [] devs hok,
      List.nil_append, List.mem_filterMap] at hd
    obtain ⟨e, _, he⟩ := hd
    unfold Linux.selected_record at he
    cases hp : e.usb_parent with
    | none => rw [hp] at he; simp at he
    | some dev =>
      rw [hp] at he
      simp only [Option.some_bind] at he
      split at he
      · rename_i hm
        rcases hm with h | ⟨h1, h2⟩
        · exact absurd h hnz
        · injection he with he
          subst he
          exact ⟨h1, h2⟩
      · cases he

/-- Linux: `hid_free_enumeration` always completes. -/
theorem linux_free_enumeration_ok (devs : List hid_device) :
    Linux.hid_free_enumeration devs = Result.ok () := by
  induction devs with
  | nil => rfl
  | cons d rest ih => simpa [Linux.hid_free_enumeration] using ih

/-- The records of the Windows enumeration loop: to the list built so far it
appends one record for every remaining interface whose detail data and
transient handle were obtained and that passes the filter. -/
theorem win_enumerate_loop_fst (vendor_id product_id : Nat)
    (interfaces : List Win.device_interface) :
    ∀ (device_index : Nat) (root : List hid_device) (calls : List Win.NativeCall),
      (Win.enumerate_loop vendor_id product_id interfaces device_index root calls).1 =
        root ++ interfaces.filterMap (Win.selected_record vendor_id product_id) := by
  induction interfaces with
  | nil => intro device_index root calls; simp [Win.enumerate_loop]
  | cons itf rest ih =>
    intro device_index root calls
    by_cases h1 : itf.detail_res = false
    · simp [Win.enumerate_loop, Win.selected_record, h1, ih]
    · have h1t : itf.detail_res = true := by simpa using h1
      by_cases h2 : itf.write_handle = Win.INVALID_HANDLE_VALUE
      · simp [Win.enumerate_loop, Win.selected_record, h1t, h2, ih]
      · by_cases h3 : (vendor_id = 0 ∧ product_id = 0) ∨
            (itf.VendorID = vendor_id ∧ itf.ProductID = product_id)
        · simp [Win.enumerate_loop, Win.selected_record, h1t, h2, h3, ih]
        · simp [Win.enumerate_loop, Win.selected_record, h1t, h2, h3, ih]

/-- Windows: every enumerated record has a path, and for a pair other than
`(0, 0)` carries exactly the ids of the pair. -/
theorem win_enumerate_mem (interfaces : List Win.device_interface)
    (vendor_id product_id : Nat) :
    ∀ d ∈ (Win.hid_enumerate interfaces vendor_id product_id).1,
      d.path ≠ none ∧
      (¬ (vendor_id = 0 ∧ product_id = 0) →
        d.vendor_id = vendor_id ∧ d.product_id = product_id) := by
  intro d hd
  simp only [Win.hid_enumerate] at hd
  rw [win_enumerate_loop_fst vendor_id product_id interfaces, List.nil_append,
    List.mem_filterMap] at hd
  obtain ⟨itf, _, he⟩ := hd
  unfold Win.selected_record at he
  split at he
  · rename_i hm
    injection he with he
    subst he
    refine ⟨by simp, ?_⟩
    intro hnz
    rcases hm.2.2 with h | h
    · exact absurd h hnz
    · exact h
  · cases he

/-- C16 as stated fails for the wildcard pair: the enumeration for `(0, 0)`
is not empty (one device, ids 04d8:003f, with a path), yet `hid_open(0, 0,
NULL)` returns `-1` and never reaches `hid_open_path` (Linux: no native call;
Windows: only the calls of the enumeration, which opens and closes the listed
interface), while `hid_open_path` on the path of that first record would have
returned handle 0.  `hid_open` compares the ids of each record with its
arguments exactly, so for `(0, 0)` only a device whose ids are both 0 is
opened.  Shown for both backends. -/
theorem C16_counterexample_wildcard_not_opened :
    ((Linux.hid_enumerate (fun str => if str = "04d8" then 1240 else 63)
          Linux.mbstowcs_c_locale
          (some [⟨some "/dev/hidraw0", some ⟨[("idVendor", "04d8"), ("idProduct", "003f")]⟩⟩])
          0 0).map (fun devs => devs.map (fun d => d.path))
        = Result.ok [some "/dev/hidraw0"] ∧
      (Linux.hid_open (fun str => if str = "04d8" then 1240 else 63) Linux.mbstowcs_c_locale
          (some [⟨some "/dev/hidraw0", some ⟨[("idVendor", "04d8"), ("idProduct", "003f")]⟩⟩])
          Linux.Table.initial 0 0 none 3).map (fun o => (o.ret, o.calls))
        = Result.ok (-1, []) ∧
      (Linux.hid_open_path Linux.Table.initial "/dev/hidraw0" 3).ret = 0) ∧
    ((Win.hid_enumerate [⟨true, "hid#0", 5, 1240, 63, false, [], none, none, 0⟩] 0 0).1.map
          (fun d => d.path) = [some "hid#0"] ∧
      (Win.hid_open [⟨true, "hid#0", 5, 1240, 63, false, [], none, none, 0⟩]
          Win.Table.initial 0 0 none 3 none).map (fun o => (o.ret, o.calls))
        = Result.ok (-1,
            [Win.NativeCall.SetupDiGetClassDevs,
              Win.NativeCall.SetupDiEnumDeviceInterfaces 0,
              Win.NativeCall.SetupDiGetDeviceInterfaceDetail 0,
              Win.NativeCall.SetupDiGetDeviceInterfaceDetail 0,
              Win.NativeCall.CreateFile "hid#0",
              Win.NativeCall.HidD_GetAttributes 5,
              Win.NativeCall.HidD_GetSerialNumberString 5 1024,
              Win.NativeCall.CloseHandle 5,
              Win.NativeCall.SetupDiEnumDeviceInterfaces 1,
              Win.NativeCall.SetupDiDestroyDeviceInfoList]) ∧
      (Win.hid_open_path Win.Table.initial "hid#0" 3 none).ret = 0) := by
  decide

/-- C16 (amended): in both backends, for every `vendor_id`, `product_id` and
a `NULL` serial number, whenever the enumeration and its release complete
(Linux: `hid_enumerate` returns its list `devs`; Windows: the two members the
enumeration never assigns hold `NULL` in every record, so that
`hid_free_enumeration` completes), `hid_open` looks for the first record of
`hid_enumerate(vendor_id, product_id)` whose two ids equal the arguments.
When there is one and it has a path, `hid_open` is `hid_open_path` on that
path (on Windows after the calls of the enumeration); when there is none, or
it has no path, `hid_open` returns `-1`, leaves the table as it is and does
not reach `hid_open_path`: on Linux it makes no native call, on Windows only
the calls of the enumeration.  For a pair other than `(0, 0)` that record is
the first record of the enumeration; in particular an empty enumeration gives
`-1`.  (On Windows every record has a path.) -/
theorem C16_open_without_serial
    (strtol16 : String → Int) (mbstowcs : String → Option (List Nat))
    (udev : Option (List Linux.hidraw_entry)) (sl : Linux.Table) (fd : Int)
    (interfaces : List Win.device_interface) (sw : Win.Table) (h : Int) (msg : Option String)
    (vendor_id product_id : Nat) (devs : List hid_device)
    (hl : Linux.hid_enumerate strtol16 mbstowcs udev vendor_id product_id = Result.ok devs)
    (hw : Win.hid_free_enumeration (Win.hid_enumerate interfaces vendor_id product_id).1
      = Result.ok ()) :
    (Linux.hid_open strtol16 mbstowcs udev sl vendor_id product_id none fd =
      (match devs.find?
          (fun d => decide (d.vendor_id = vendor_id ∧ d.product_id = product_id)) with
        | some d =>
          (match d.path with
            | some path => Result.ok (Linux.hid_open_path sl path fd)
            | none => Result.ok { table := sl, ret := -1, calls := [] })
        | none => Result.ok { table := sl, ret := -1, calls := [] }) ∧
      (¬ (vendor_id = 0 ∧ product_id = 0) →
        devs.find? (fun d => decide (d.vendor_id = vendor_id ∧ d.product_id = product_id))
          = devs.head?) ∧
      (devs = [] →
        Linux.hid_open strtol16 mbstowcs udev sl vendor_id product_id none fd
          = Result.ok { table := sl, ret := -1, calls := [] })) ∧
    (Win.hid_open interfaces sw vendor_id product_id none h msg =
      (match (Win.hid_enumerate interfaces vendor_id product_id).1.find?
          (fun d => decide (d.vendor_id = vendor_id ∧ d.product_id = product_id)) with
        | some d =>
          (match d.path with
            | some path =>
              Result.ok
                { table := (Win.hid_open_path sw path h msg).table
                  ret := (Win.hid_open_path sw path h msg).ret
                  calls := (Win.hid_enumerate interfaces vendor_id product_id).2 ++
                    (Win.hid_open_path sw path h msg).calls }
            | none =>
              Result.ok
                { table := sw, ret := -1
                  calls := (Win.hid_enumerate interfaces vendor_id product_id).2 })
        | none =>
          Result.ok
            { table := sw, ret := -1
              calls := (Win.hid_enumerate interfaces vendor_id product_id).2 }) ∧
      (¬ (vendor_id = 0 ∧ product_id = 0) →
        (Win.hid_enumerate interfaces vendor_id product_id).1.find?
            (fun d => decide (d.vendor_id = vendor_id ∧ d.product_id = product_id))
          = (Win.hid_enumerate interfaces vendor_id product_id).1.head?) ∧
      ((Win.hid_enumerate interfaces vendor_id product_id).1 = [] →
        Win.hid_open interfaces sw vendor_id product_id none h msg
          = Result.ok
              { table := sw, ret := -1
                calls := (Win.hid_enumerate interfaces vendor_id product_id).2 }) ∧
      (∀ d ∈ (Win.hid_enumerate interfaces vendor_id product_id).1, d.path ≠ none)) := by
  have el : Linux.hid_open strtol16 mbstowcs udev sl vendor_id product_id none fd =
      (match devs.find?
          (fun d => decide (d.vendor_id = vendor_id ∧ d.product_id = product_id)) with
        | some d =>
          (match d.path with
            | some path => Result.ok (Linux.hid_open_path sl path fd)
            | none => Result.ok { table := sl, ret := -1, calls := [] })
        | none => Result.ok { table := sl, ret := -1, calls := [] }) := by
    unfold Linux.hid_open
    simp only [hl, hid_open_scan_no_serial, linux_free_enumeration_ok]
    cases List.find? (fun d => decide (d.vendor_id = vendor_id ∧ d.product_id = product_id))
        devs with
    | none => rfl
    | some d =>
      cases hp : d.path with
      | none => simp only [hp]
      | some path => simp only [hp]
  have ew : Win.hid_open interfaces sw vendor_id product_id none h msg =
      (match (Win.hid_enumerate interfaces vendor_id product_id).1.find?
          (fun d => decide (d.vendor_id = vendor_id ∧ d.product_id = product_id)) with
        | some d =>
          (match d.path with
            | some path =>
              Result.ok
                { table := (Win.hid_open_path sw path h msg).table
                  ret := (Win.hid_open_path sw path h msg).ret
                  calls := (Win.hid_enumerate interfaces vendor_id product_id).2 ++
                    (Win.hid_open_path sw path h msg).calls }
            | none =>
              Result.ok
                { table := sw, ret := -1
                  calls := (Win.hid_enumerate interfaces vendor_id product_id).2 })
        | none =>
          Result.ok
            { table := sw, ret := -1
              calls := (Win.hid_enumerate interfaces vendor_id product_id).2 }) := by
    unfold Win.hid_open
    simp only [hw, hid_open_scan_no_serial]
    cases List.find? (fun d => decide (d.vendor_id = vendor_id ∧ d.product_id = product_id))
        (Win.hid_enumerate interfaces vendor_id product_id).1 with
    | none => rfl
    | some d =>
      cases hp : d.path with
      | none => simp only [hp]
      | some path => simp only [hp]
  refine ⟨⟨el, ?_, ?_⟩, ⟨ew, ?_, ?_, ?_⟩⟩
  · intro hnz
    apply find_eq_head_of_all
    intro d hd
    exact decide_eq_true
      (linux_enumerate_mem_ids strtol16 mbstowcs udev vendor_id product_id devs hl hnz d hd)
  · intro hempty
    rw [el, hempty]
    rfl
  · intro hnz
    apply find_eq_head_of_all
    intro d hd
    exact decide_eq_true ((win_enumerate_mem interfaces vendor_id product_id d hd).2 hnz)
  · intro hempty
    rw [ew, hempty]
    rfl
  · intro d hd
    exact (win_enumerate_mem interfaces vendor_id product_id d hd).1

/-- C16 (amended) at concrete inputs: for the pair 04d8:003f each enumeration
has one record (strings convertible, unassigned members `NULL`), and
`hid_open` is `hid_open_path` on its path, which returns handle 0. -/
theorem C16_open_without_serial_witness :
    (Linux.hid_open (fun str => if str = "04d8" then 1240 else 63) Linux.mbstowcs_c_locale
        (some [⟨some "/dev/hidraw0", some ⟨[("idVendor", "04d8"), ("idProduct", "003f")]⟩⟩])
        Linux.Table.initial 1240 63 none 3).map (fun o => o.ret) = Result.ok 0 ∧
    (Win.hid_open [⟨true, "hid#0", 5, 1240, 63, false, [], none, none, 0⟩]
        Win.Table.initial 1240 63 none 3 none).map (fun o => o.ret) = Result.ok 0 := by
  have hc :=
    C16_open_without_serial (fun str => if str = "04d8" then 1240 else 63)
      Linux.mbstowcs_c_locale
      (some [⟨some "/dev/hidraw0", some ⟨[("idVendor", "04d8"), ("idProduct", "003f")]⟩⟩])
      Linux.Table.initial 3 [⟨true, "hid#0", 5, 1240, 63, false, [], none, none, 0⟩]
      Win.Table.initial 3 none 1240 63
      [{ path := some "/dev/hidraw0", vendor_id := 1240, product_id := 63,
         serial_number := none, manufacturer_string := none, product_string := none }]
      (by decide) (by decide)
  refine ⟨?_, ?_⟩
  · rw [hc.1.1]
    decide
  · rw [hc.2.1]
    decide

/-- C17 fails in both backends: the enumeration for 04d8:003f lists a device
without a serial number first and the device with serial number "1" second;
`hid_open(0x04d8, 0x003f, L"1")` reaches the first record, whose ids match, and
calls `wcscmp` with its `NULL` serial number, which is undefined behaviour,
instead of moving on to the second record. -/
theorem C17_null_serial_is_compared :
    ((Linux.hid_enumerate (fun str => if str = "04d8" then 1240 else 63)
          (fun str => some (str.toList.map Char.toNat))
          (some [⟨some "/dev/hidraw0", some ⟨[("idVendor", "04d8"), ("idProduct", "003f")]⟩⟩,
                 ⟨some "/dev/hidraw1",
                  some ⟨[("idVendor", "04d8"), ("idProduct", "003f"), ("serial", "1")]⟩⟩])
          1240 63).map (fun devs => devs.map (fun d => (d.path, d.serial_number)))
        = Result.ok [(some "/dev/hidraw0", none), (some "/dev/hidraw1", some [49])] ∧
      Linux.hid_open (fun str => if str = "04d8" then 1240 else 63)
          (fun str => some (str.toList.map Char.toNat))
          (some [⟨some "/dev/hidraw0", some ⟨[("idVendor", "04d8"), ("idProduct", "003f")]⟩⟩,
                 ⟨some "/dev/hidraw1",
                  some ⟨[("idVendor", "04d8"), ("idProduct", "003f"), ("serial", "1")]⟩⟩])
          Linux.Table.initial 1240 63 (some [49]) 3 = Result.fault Fault.wcscmp_null) ∧
    ((Win.hid_enumerate
          [⟨true, "hid#0", 5, 1240, 63, false, [], none, none, 0⟩,
           ⟨true, "hid#1", 6, 1240, 63, true, [49], none, none, 0⟩] 1240 63).1.map
          (fun d => (d.path, d.serial_number))
        = [(some "hid#0", none), (some "hid#1", some [49])] ∧
      Win.hid_open
          [⟨true, "hid#0", 5, 1240, 63, false, [], none, none, 0⟩,
           ⟨true, "hid#1", 6, 1240, 63, true, [49], none, none, 0⟩]
          Win.Table.initial 1240 63 (some [49]) 3 none = Result.fault Fault.wcscmp_null) := by
  refine ⟨⟨by decide, ?_⟩, ⟨by decide, ?_⟩⟩
  · rfl
  · rfl

/-- Windows: when the `malloc`ed record of the enumeration holds anything but
`NULL` in the `manufacturer_string` member, which `hid_enumerate` never
assigns, `hid_open` leaves defined behaviour in `hid_free_enumeration`
(after `hid_open_path` has run). -/
theorem win_hid_open_frees_unassigned_member :
    Win.hid_open [⟨true, "hid#0", 5, 1240, 63, false, [], some [65], none, 0⟩]
        Win.Table.initial 1240 63 none 3 none = Result.fault Fault.free_unassigned := by
  rfl

/-- Windows: `hid_free_enumeration` completes exactly when no record holds
anything but `NULL` in the two members the enumeration never assigns. -/
theorem win_free_enumeration_ok_iff (devs : List hid_device) :
    Win.hid_free_enumeration devs = Result.ok () ↔
      ∀ d ∈ devs, d.manufacturer_string = none ∧ d.product_string = none := by
  induction devs with
  | nil => simp [Win.hid_free_enumeration]
  | cons d rest ih =>
    by_cases hd : d.manufacturer_string = none ∧ d.product_string = none
    · have e : Win.hid_free_enumeration (d :: rest) = Win.hid_free_enumeration rest := by
        simp only [Win.hid_free_enumeration, if_pos hd]
      rw [e, ih]
      constructor
      · intro h x hx
        rcases List.mem_cons.1 hx with hx | hx
        · rw [hx]; exact hd
        · exact h x hx
      · intro h x hx
        exact h x (List.mem_cons_of_mem _ hx)
    · have e : Win.hid_free_enumeration (d :: rest) = Result.fault Fault.free_unassigned := by
        simp only [Win.hid_free_enumeration, if_neg hd]
      rw [e]
      constructor
      · intro hc
        cases hc
      · intro h
        exact absurd (h d (List.mem_cons_self _ _)) hd

/-! ## The stale diagnostic of C14, in general -/

/-- Windows: on every well-formed table with a free slot, when a
`hid_open_path` fails natively with message `msg1` and the next
`hid_open_path` obtains a handle, the handle `r` it returns answers
`hid_error(r)` with `msg1`. -/
theorem win_open_after_failed_open_keeps_message (s : Win.Table) (hwf : s.wf)
    (j : Fin MAX_DEVICES) (hj : (s.devices j).valid = false) (p1 p2 : String)
    (msg1 msg2 : Option String) (h : Int) (hh : h ≠ Win.INVALID_HANDLE_VALUE) :
    ∃ r : Fin MAX_DEVICES,
      (Win.hid_open_path (Win.hid_open_path s p1 Win.INVALID_HANDLE_VALUE msg1).table
        p2 h msg2).ret = (r.val : Int) ∧
      (Win.hid_error
        (Win.hid_open_path (Win.hid_open_path s p1 Win.INVALID_HANDLE_VALUE msg1).table
          p2 h msg2).table r.val).ret = msg1 := by
  have hv := Win.win_init_devices_valid s hwf
  have hne : find_available (fun k => ((Win.init_devices s).devices k).valid)
      MAX_DEVICES 0 ≠ none := by
    intro hn
    have hall := (find_available_full_none _).1 hn j
    simp only [hv] at hall
    rw [hj] at hall
    cases hall
  obtain ⟨i, hi⟩ := Option.ne_none_iff_exists'.1 hne
  have hsp := (find_available_full_some _ i).1 hi
  have hinit1 := Win.win_open_path_initialized s p1 Win.INVALID_HANDLE_VALUE msg1
  have e1 := Win.win_open_path_failed s p1 msg1 i hi
  have hslot : ((Win.hid_open_path s p1 Win.INVALID_HANDLE_VALUE msg1).table.devices i)
      = { (Win.init_devices s).devices i with
          valid := false, device_handle := Win.INVALID_HANDLE_VALUE, last_error_str := msg1 } := by
    rw [e1]
    simp
  have hother : ∀ k, k ≠ i →
      (Win.hid_open_path s p1 Win.INVALID_HANDLE_VALUE msg1).table.devices k
        = (Win.init_devices s).devices k := by
    intro k hk
    rw [e1]
    simp only [Function.update_noteq hk]
  have hf : find_available
      (fun k => ((Win.init_devices
        (Win.hid_open_path s p1 Win.INVALID_HANDLE_VALUE msg1).table).devices k).valid)
      MAX_DEVICES 0 = some i := by
    rw [Win.win_init_devices_of_initialized _ hinit1, find_available_full_some]
    refine ⟨by simp only [hslot], ?_⟩
    intro k hk
    have hki : k ≠ i := fun hc => by rw [hc] at hk; exact absurd hk (lt_irrefl _)
    simp only [hother k hki]
    exact hsp.2 k hk
  refine ⟨i, ?_, ?_⟩
  · rw [Win.win_open_path_ok _ p2 h msg2 i hf hh]
  · have e2 := Win.win_open_path_ok _ p2 h msg2 i hf hh
    have hslot2 : ((Win.hid_open_path
        (Win.hid_open_path s p1 Win.INVALID_HANDLE_VALUE msg1).table p2 h msg2).table.devices i)
        = { (Win.hid_open_path s p1 Win.INVALID_HANDLE_VALUE msg1).table.devices i with
            valid := true, device_handle := h } := by
      rw [e2, Win.win_init_devices_of_initialized _ hinit1]
      simp
    have hg := Win.win_get_handle_some
      (Win.hid_open_path
        (Win.hid_open_path s p1 Win.INVALID_HANDLE_VALUE msg1).table p2 h msg2).table i
      (by rw [hslot2])
    simp only [Win.hid_error, hg, hslot2, hslot]

end HidApi
